import Mathlib

/-!
Shallow embedding of `ObjectIO.py` (a binary object-marshalling engine) and
verification of its specification claims.

Conventions of the embedding:
* Python byte buffers and strings are `List Nat` (strings as lists of code
  points; `chr`/`ord` are the identity in this representation).
* Every stateful `ObjectStream` method becomes a function
  `ObjectStream → ... → Except Err α × ObjectStream`: the returned stream is
  the mutated receiver.  A raised Python exception is `.error e` paired with
  the receiver's state at the moment of the raise (mutations already
  performed are kept, exactly as in Python).
* Python object identity (needed for the `self == obj` guard of
  `writeObject`, which is an identity comparison because `ObjectStream`
  defines no `__eq__`) is modelled by an `ident : Nat` tag on streams and on
  stream values.
* Machine integers are `Nat` with the source's bit fiddling rendered
  arithmetically: `x >> 24` is `x / 2 ^ 24`, `x & 0xFF000000 >> 24` is
  `x / 2 ^ 24 % 256`, `x << 8` is `x * 256`.
* Recursion of `readObject` (whose termination in Python is by consuming
  bytes) is bounded by an explicit fuel parameter; exhausting fuel yields the
  artificial error `.fuelOut`, and every theorem supplies enough fuel, so the
  artificial branch is never observed.
-/

/-- Python exception kinds raised (or reachable) in `ObjectIO.py`.
`fuelOut` is an artifact of the fueled embedding of `readObject` and
corresponds to no Python behaviour. -/
inductive Err where
  | valueError
  | indexError
  | typeError
  | attributeError
  | nameError
  | recursionError
  | fuelOut
  deriving DecidableEq, Repr

/-- What `readObject` needs to know about a class resolved from the module
registry: `streamKind` classes expose `writeToObjectStream` and
`readFromObjectStream` (in the source, `ObjectStream` itself); `plainKind`
classes are zero-argument constructible with an (initially empty) attribute
dictionary; `scalarKind` classes (`int`, `bool`, `str`, `float`) construct
instances that have no `__dict__` attribute, so the composite read path
fails with `AttributeError` on them. -/
inductive PyClassKind where
  | scalarKind
  | plainKind
  | streamKind
  deriving DecidableEq, Repr

mutual
/-- The Python values the marshaller can receive: generic scalars
(`int`, `bool`, `None`, `str`), a nested `ObjectStream` (identity tag,
buffer, cursor), and plain instances carrying an ordered attribute
dictionary (module name, class name, fields).  Floats are outside the
embedding. -/
inductive PyValue where
  | pyInt (n : Int)
  | pyBool (b : Bool)
  | pyNone
  | pyStr (cs : List Nat)
  | pyStream (ident : Nat) (d : List Nat) (off : Nat)
  | pyObj (m c : List Nat) (fs : PyFields)
  deriving DecidableEq, Repr
/-- An ordered attribute dictionary (`vars(obj)` / `__dict__`): a sequence of
(name, value) pairs in insertion order. -/
inductive PyFields where
  | nil
  | cons (name : List Nat) (v : PyValue) (rest : PyFields)
  deriving DecidableEq, Repr
end

/-- Code points of a string literal, the `List Nat` form used for all names
in the embedding. -/
def strCodes (s : String) : List Nat := s.toList.map Char.toNat

/-- Number of fields (`len(vars(obj))`). -/
def flen : PyFields → Nat
  | .nil => 0
  | .cons _ _ rest => flen rest + 1

/-- The field names in order (`vars(obj).keys()`). -/
def fieldNames : PyFields → List (List Nat)
  | .nil => []
  | .cons n _ rest => n :: fieldNames rest

/-- Python `dict` insertion: an existing key keeps its position and gets the
new value, a new key is appended. -/
def dictInsert : PyFields → List Nat → PyValue → PyFields
  | .nil, n, v => .cons n v .nil
  | .cons m w rest, n, v =>
    if m = n then .cons m v rest else .cons m w (dictInsert rest n v)

/-- Python `dict.update`: insert every pair of the second dictionary into the
first, in order. -/
def dictUpdate : PyFields → PyFields → PyFields
  | base, .nil => base
  | base, .cons n v rest => dictUpdate (dictInsert base n v) rest

/-- Concatenation of field dictionaries (proof-side helper). -/
def fappend : PyFields → PyFields → PyFields
  | .nil, g => g
  | .cons n v r, g => .cons n v (fappend r g)

/-- Model of the interpreter's `sys.modules` at the point the claims are
examined: the `builtins` module (note that `NoneType` is *not* an attribute
of `builtins` in Python 3), the `ObjectIO` module with the `ObjectStream`
class, and an application module with two ordinary zero-argument
constructible classes registered by the user.  `Utils.getClass` looks names
up here. -/
def pyModules : List (List Nat × List (List Nat × PyClassKind)) :=
  [ (strCodes ("builtins"),
      [ (strCodes ("int"), .scalarKind),
        (strCodes ("bool"), .scalarKind),
        (strCodes ("float"), .scalarKind),
        (strCodes ("str"), .scalarKind) ]),
    (strCodes ("ObjectIO"),
      [ (strCodes ("ObjectStream"), .streamKind) ]),
    (strCodes ("appmodule"),
      [ (strCodes ("Point"), .plainKind),
        (strCodes ("Box"), .plainKind) ]) ]

/-- Embedding of `Utils.getClass(moduleName, className)`:
`getattr(sys.modules[moduleName], className)`.  A missing module raises
`KeyError`, which the source catches and converts to `TypeError` (the
spec's TypeLookupError); a missing class in a present module raises
`AttributeError` from `getattr`, which the source does *not* catch. -/
def getClass (moduleName className : List Nat) : Except Err PyClassKind :=
  match pyModules.lookup moduleName with
  | none => .error .typeError
  | some classes =>
    match classes.lookup className with
    | none => .error .attributeError
    | some k => .ok k

/-- The `(obj.__class__.__module__, obj.__class__.__name__)` pair of a
value. -/
def classOf : PyValue → List Nat × List Nat
  | .pyInt _ => (strCodes ("builtins"), strCodes ("int"))
  | .pyBool _ => (strCodes ("builtins"), strCodes ("bool"))
  | .pyNone => (strCodes ("builtins"), strCodes ("NoneType"))
  | .pyStr _ => (strCodes ("builtins"), strCodes ("str"))
  | .pyStream _ _ _ => (strCodes ("ObjectIO"), strCodes ("ObjectStream"))
  | .pyObj m c _ => (m, c)

/-! ## DataUtils -/

/-- Embedding of `DataUtils.addRawUtf16CharacterToUtf8ByteArray`: append the
high and low byte of a code point (`character >> 8`, `character & 0xFF`).
Note the high part is *not* masked to one byte in the source. -/
def addRawUtf16CharacterToUtf8ByteArray (array : List Nat) (character : Nat) : List Nat :=
  array ++ [character / 256, character % 256]

/-- Lowercase hexadecimal digit of a value below 16. -/
def hexDigit (n : Nat) : Nat := if n < 10 then 48 + n else 87 + n

/-- Four lowercase hexadecimal digits of `n % 2 ^ 16` (the `%04x` format). -/
def hex4 (n : Nat) : List Nat :=
  [hexDigit (n / 4096 % 16), hexDigit (n / 256 % 16), hexDigit (n / 16 % 16), hexDigit (n % 16)]

/-- Embedding of `DataUtils.addEscapedUtf16CharacterToUtf8ByteArray`: append
the six bytes of `\uXXXX`.  Dead code in the source: nothing calls it. -/
def addEscapedUtf16CharacterToUtf8ByteArray (array : List Nat) (character : Nat) : List Nat :=
  array ++ [92, 117] ++ hex4 character

/-- Embedding of `DataUtils.convertStringToUtf16Bytes`: two bytes per code
point, big-endian (`value >> 8`, `value & 0xFF`; the high part unmasked). -/
def convertStringToUtf16Bytes : List Nat → List Nat
  | [] => []
  | c :: rest => c / 256 :: c % 256 :: convertStringToUtf16Bytes rest

/-- Embedding of `DataUtils.convertStringToUtf8Bytes`.  A code point above
255 makes the source evaluate `Utilities.addRawUtf16CharacterToUtf8ByteArray`
— but no name `Utilities` exists anywhere in the module, so Python raises
`NameError` at that point (the conversion list built so far is discarded;
nothing was yet appended to the stream). -/
def convertStringToUtf8Bytes : List Nat → Except Err (List Nat)
  | [] => .ok []
  | c :: rest =>
    if c > 255 then .error .nameError
    else
      match convertStringToUtf8Bytes rest with
      | .error e => .error e
      | .ok bs => .ok (c :: bs)

/-- Embedding of `DataUtils.convertListToString`: `chr` of every entry, i.e.
the identity on the code-point representation. -/
def convertListToString (byteData : List Nat) : List Nat := byteData.map (fun c => c)

/-- Embedding of `DataUtils.convertUtf16BytesToString`: combine consecutive
byte pairs big-endian; an odd-length input indexes one past the end and
raises `IndexError`. -/
def convertUtf16BytesToString : List Nat → Except Err (List Nat)
  | [] => .ok []
  | [_] => .error .indexError
  | b1 :: b2 :: rest =>
    match convertUtf16BytesToString rest with
    | .error e => .error e
    | .ok cs => .ok ((b1 * 256 + b2) :: cs)

/-! ## The external generic-value codec

The marshaller delegates scalar bodies to `json.dumps` / `json.loads` from
the Python standard library.  The spec treats this codec as an external
collaborator and does not re-specify it; the definitions below model its
behaviour on the value subset of the embedding (ints, bools, `None`,
strings with `ensure_ascii` escaping including surrogate pairs).  Floats
and whitespace tolerance are not modelled; the round-trip theorems take the
codec's round-trip on the given value as a hypothesis ("representable by
the generic-value codec") rather than relying on fine points of this
model. -/

/-- Decimal digit code points of `n`, most significant first (fueled; the
fuel `n + 1` always suffices). -/
def natDigitsAux : Nat → Nat → List Nat
  | 0, _ => []
  | fuel + 1, n =>
    if n < 10 then [48 + n] else natDigitsAux fuel (n / 10) ++ [48 + n % 10]

/-- Decimal representation of a natural number, as code points. -/
def natDigits (n : Nat) : List Nat := natDigitsAux (n + 1) n

/-- JSON string escaping of one code point with `ensure_ascii=True`: the two
character escapes for `"`, `\` and the control shorthands, `\uXXXX` for
other characters outside `[0x20, 0x7e]`, surrogate pairs above `0xFFFF`. -/
def jsonEscapeChar (c : Nat) : List Nat :=
  if c = 34 then [92, 34]
  else if c = 92 then [92, 92]
  else if c = 8 then [92, 98]
  else if c = 9 then [92, 116]
  else if c = 10 then [92, 110]
  else if c = 12 then [92, 102]
  else if c = 13 then [92, 114]
  else if c < 32 ∨ 126 < c then
    if c < 65536 then [92, 117] ++ hex4 c
    else [92, 117] ++ hex4 (55296 + (c - 65536) / 1024) ++ [92, 117] ++ hex4 (56320 + (c - 65536) % 1024)
  else [c]

/-- JSON string escaping of a whole string. -/
def jsonEscape (cs : List Nat) : List Nat := (cs.map jsonEscapeChar).flatten

/-- Model of `json.dumps` on the embedded values: non-serializable objects
raise `TypeError` (never reached by `writeObject`, which routes streams and
`__dict__` carriers elsewhere). -/
def jsonDumps : PyValue → Except Err (List Nat)
  | .pyInt n => .ok (if n < 0 then 45 :: natDigits (-n).toNat else natDigits n.toNat)
  | .pyBool b => .ok (if b then strCodes ("true") else strCodes ("false"))
  | .pyNone => .ok (strCodes ("null"))
  | .pyStr cs => .ok (34 :: (jsonEscape cs ++ [34]))
  | _ => .error .typeError

/-- Total variant of `jsonDumps` used by the proof-side byte-layout
functions (empty on the unserializable values). -/
def jdump (v : PyValue) : List Nat :=
  match jsonDumps v with
  | .ok j => j
  | .error _ => []

/-- Value of one hexadecimal digit code point. -/
def parseHex (c : Nat) : Option Nat :=
  if 48 ≤ c ∧ c ≤ 57 then some (c - 48)
  else if 97 ≤ c ∧ c ≤ 102 then some (c - 87)
  else if 65 ≤ c ∧ c ≤ 70 then some (c - 55)
  else none

/-- Prefix a successfully parsed string with one code point. -/
def pushChar (c : Nat) : Except Err (List Nat × List Nat) → Except Err (List Nat × List Nat)
  | .ok (cs, rem) => .ok (c :: cs, rem)
  | .error e => .error e

/-- JSON string body parser (after the opening quote), fueled so that the
definition is structurally recursive (every step consumes at least one
input element, so fuel `length + 1` always suffices): returns the decoded
code points and the input remaining after the closing quote.  Surrogate
pairs written as two `\uXXXX` escapes are recombined, as `json.loads`
does. -/
def parseJStringAux : Nat → List Nat → Except Err (List Nat × List Nat)
  | 0, _ => .error .valueError
  | _ + 1, [] => .error .valueError
  | _ + 1, 34 :: rest => .ok ([], rest)
  | fuel + 1, 92 :: 34 :: r => pushChar 34 (parseJStringAux fuel r)
  | fuel + 1, 92 :: 92 :: r => pushChar 92 (parseJStringAux fuel r)
  | fuel + 1, 92 :: 47 :: r => pushChar 47 (parseJStringAux fuel r)
  | fuel + 1, 92 :: 98 :: r => pushChar 8 (parseJStringAux fuel r)
  | fuel + 1, 92 :: 116 :: r => pushChar 9 (parseJStringAux fuel r)
  | fuel + 1, 92 :: 110 :: r => pushChar 10 (parseJStringAux fuel r)
  | fuel + 1, 92 :: 102 :: r => pushChar 12 (parseJStringAux fuel r)
  | fuel + 1, 92 :: 114 :: r => pushChar 13 (parseJStringAux fuel r)
  | fuel + 1, 92 :: 117 :: h1 :: h2 :: h3 :: h4 :: 92 :: 117 :: g1 :: g2 :: g3 :: g4 :: r2 =>
    match parseHex h1, parseHex h2, parseHex h3, parseHex h4 with
    | some a, some b, some e, some f =>
      let u := ((a * 16 + b) * 16 + e) * 16 + f
      if 55296 ≤ u ∧ u ≤ 56319 then
        match parseHex g1, parseHex g2, parseHex g3, parseHex g4 with
        | some a2, some b2, some e2, some f2 =>
          let u2 := ((a2 * 16 + b2) * 16 + e2) * 16 + f2
          if 56320 ≤ u2 ∧ u2 ≤ 57343 then
            pushChar (65536 + (u - 55296) * 1024 + (u2 - 56320)) (parseJStringAux fuel r2)
          else pushChar u (parseJStringAux fuel (92 :: 117 :: g1 :: g2 :: g3 :: g4 :: r2))
        | _, _, _, _ => pushChar u (parseJStringAux fuel (92 :: 117 :: g1 :: g2 :: g3 :: g4 :: r2))
      else pushChar u (parseJStringAux fuel (92 :: 117 :: g1 :: g2 :: g3 :: g4 :: r2))
    | _, _, _, _ => .error .valueError
  | fuel + 1, 92 :: 117 :: h1 :: h2 :: h3 :: h4 :: r =>
    match parseHex h1, parseHex h2, parseHex h3, parseHex h4 with
    | some a, some b, some e, some f =>
      pushChar (((a * 16 + b) * 16 + e) * 16 + f) (parseJStringAux fuel r)
    | _, _, _, _ => .error .valueError
  | _ + 1, 92 :: _ => .error .valueError
  | fuel + 1, c :: rest =>
    if c < 32 then .error .valueError else pushChar c (parseJStringAux fuel rest)

/-- JSON string body parser at adequate fuel. -/
def parseJString (l : List Nat) : Except Err (List Nat × List Nat) :=
  parseJStringAux (l.length + 1) l

/-- Consume leading decimal digits, folding them into a value. -/
def digitsVal : List Nat → Nat → Nat × List Nat
  | [], acc => (acc, [])
  | c :: rest, acc =>
    if 48 ≤ c ∧ c ≤ 57 then digitsVal rest (acc * 10 + (c - 48)) else (acc, c :: rest)

/-- Model of `json.loads` on the output language of the modelled `dumps`:
the literals `null`, `true`, `false`, integers, and strings.  Inputs
outside that language (floats, whitespace, containers) are rejected with
`valueError`; this diverges from CPython only on inputs the marshaller
never produces. -/
def jsonLoads (j : List Nat) : Except Err PyValue :=
  match j with
  | 110 :: 117 :: 108 :: 108 :: [] => .ok .pyNone
  | 116 :: 114 :: 117 :: 101 :: [] => .ok (.pyBool true)
  | 102 :: 97 :: 108 :: 115 :: 101 :: [] => .ok (.pyBool false)
  | 34 :: rest =>
    match parseJString rest with
    | .ok (cs, []) => .ok (.pyStr cs)
    | .ok _ => .error .valueError
    | .error e => .error e
  | 45 :: c :: rest =>
    if 48 ≤ c ∧ c ≤ 57 then
      match digitsVal (c :: rest) 0 with
      | (v, []) => .ok (.pyInt (-(v : Int)))
      | _ => .error .valueError
    else .error .valueError
  | c :: rest =>
    if 48 ≤ c ∧ c ≤ 57 then
      match digitsVal (c :: rest) 0 with
      | (v, []) => .ok (.pyInt (v : Int))
      | _ => .error .valueError
    else .error .valueError
  | [] => .error .valueError

/-- The value is representable by the generic-value codec: `dumps` succeeds,
its output survives the Encoding-A transport (every byte nonzero and at
most 255), and `loads` restores the value. -/
def jsonOkB (v : PyValue) : Bool :=
  match jsonDumps v with
  | .error _ => false
  | .ok j =>
    j.all (fun c => decide (0 < c) && decide (c ≤ 255)) &&
      (match jsonLoads j with
       | .ok w => decide (w = v)
       | .error _ => false)

/-! ## ObjectStream primitives -/

/-- State of an `ObjectStream`: identity tag (Python object identity),
byte buffer, read cursor. -/
structure ObjectStream where
  ident : Nat
  data : List Nat
  offset : Nat
  deriving DecidableEq, Repr

/-- Embedding of `getBytes`. -/
def getBytes (s : ObjectStream) : List Nat := s.data

/-- Embedding of `getRemainingBytes`: `self.data[self.offset:]`. -/
def getRemainingBytes (s : ObjectStream) : List Nat := s.data.drop s.offset

/-- Embedding of `getRemainingByteCount`: `len(self.data) - self.offset`
(the source value can never be negative on states reachable without
`readFromObjectStream`, and the truncated subtraction below agrees with the
guards it feeds either way). -/
def getRemainingByteCount (s : ObjectStream) : Nat := s.data.length - s.offset

/-- Embedding of `getObjectStreamFromRemaining`: a fresh stream (fresh
identity, modelled with tag 0) over a copy of the unread tail. -/
def getObjectStreamFromRemaining (s : ObjectStream) : ObjectStream :=
  ⟨0, getRemainingBytes s, 0⟩

/-- Embedding of `writeByte` in append mode (`offset == -1`): values outside
`[0, 255]` raise `ValueError` before any mutation. -/
def writeByte (s : ObjectStream) (b : Nat) : Except Err Unit × ObjectStream :=
  if 255 < b then (.error .valueError, s)
  else (.ok (), ⟨s.ident, s.data ++ [b], s.offset⟩)

/-- Embedding of `writeByte` with an explicit (non-negative) offset:
overwrite in place; an out-of-range index raises `IndexError`. -/
def writeByteAt (s : ObjectStream) (b : Nat) (o : Nat) : Except Err Unit × ObjectStream :=
  if 255 < b then (.error .valueError, s)
  else if o < s.data.length then (.ok (), ⟨s.ident, s.data.set o b, s.offset⟩)
  else (.error .indexError, s)

/-- Embedding of `readByte` in cursor mode (`offset == -1`): return the byte
at the cursor and advance; past the end `self.data[self.offset]` raises
`IndexError` with the cursor untouched. -/
def readByte (s : ObjectStream) : Except Err Nat × ObjectStream :=
  match s.data[s.offset]? with
  | some b => (.ok b, ⟨s.ident, s.data, s.offset + 1⟩)
  | none => (.error .indexError, s)

/-- Embedding of `readByte` with an explicit (non-negative) offset:
non-advancing. -/
def readByteAt (s : ObjectStream) (o : Nat) : Except Err Nat :=
  match s.data[o]? with
  | some b => .ok b
  | none => .error .indexError

/-- Embedding of `writeBytes`: `writeByte` per element; a failure keeps the
bytes already appended. -/
def writeBytes (s : ObjectStream) : List Nat → Except Err Unit × ObjectStream
  | [] => (.ok (), s)
  | b :: rest =>
    match writeByte s b with
    | (.error e, s1) => (.error e, s1)
    | (.ok _, s1) => writeBytes s1 rest

/-- Embedding of `readBytes`: the slice `self.data[offset : offset+amount]`
(truncating at the end), cursor advanced by the length actually taken. -/
def readBytes (s : ObjectStream) (amount : Nat) : List Nat × ObjectStream :=
  let bs := (s.data.drop s.offset).take amount
  (bs, ⟨s.ident, s.data, s.offset + bs.length⟩)

/-- Embedding of `writeUtf8`: Encoding-A bytes of the string followed by one
zero terminator.  The conversion happens before any mutation, so a
conversion failure (`NameError`, see `convertStringToUtf8Bytes`) leaves the
stream unchanged. -/
def writeUtf8 (s : ObjectStream) (string : List Nat) : Except Err Unit × ObjectStream :=
  match convertStringToUtf8Bytes string with
  | .error e => (.error e, s)
  | .ok bs => (.ok (), ⟨s.ident, s.data ++ bs ++ [0], s.offset⟩)

/-- Loop of `readUtf8` (fueled; the caller passes remaining count + 1, which
always suffices because every iteration consumes one byte).  The guard is
the source's `getRemainingByteCount() > 0 and previousByte != 0 and
currentByte != 0`; the body appends the current byte to the string, shifts
`previousByte`, and reads the next byte. -/
def readUtf8Loop : Nat → ObjectStream → Nat → Nat → List Nat → Except Err (List Nat) × ObjectStream
  | 0, s, _, _, acc => (.ok acc, s)
  | fuel + 1, s, prev, cur, acc =>
    if 0 < getRemainingByteCount s ∧ prev ≠ 0 ∧ cur ≠ 0 then
      match readByte s with
      | (.error e, s1) => (.error e, s1)
      | (.ok b, s1) => readUtf8Loop fuel s1 cur b (acc ++ [cur])
    else (.ok acc, s)

/-- Embedding of `readUtf8`: read one byte (an immediate zero means the
empty string), read a second byte, then scan with `readUtf8Loop`. -/
def readUtf8 (s : ObjectStream) : Except Err (List Nat) × ObjectStream :=
  match readByte s with
  | (.error e, s1) => (.error e, s1)
  | (.ok prev, s1) =>
    if prev = 0 then (.ok [], s1)
    else
      match readByte s1 with
      | (.error e, s2) => (.error e, s2)
      | (.ok cur, s2) => readUtf8Loop (getRemainingByteCount s2 + 1) s2 prev cur [prev]

/-- Embedding of `writeUtf16`: Encoding-B bytes followed by two zero
terminator bytes (appended directly to the buffer, no range checks). -/
def writeUtf16 (s : ObjectStream) (string : List Nat) : Except Err Unit × ObjectStream :=
  (.ok (), ⟨s.ident, s.data ++ convertStringToUtf16Bytes string ++ [0, 0], s.offset⟩)

/-- Embedding of `readUtf16`.  In the default mode (`size == -1`) the source
reads one byte and then evaluates the loop guard
`self.getRemainingBytes() > 0` — which compares a *list* with an integer
and therefore raises `TypeError` unconditionally in Python 3.  With an
explicit size it reads that many bytes and decodes them as flat character
codes. -/
def readUtf16 (s : ObjectStream) (size : Option Nat := none) : Except Err (List Nat) × ObjectStream :=
  match size with
  | none =>
    match readByte s with
    | (.error e, s1) => (.error e, s1)
    | (.ok _, s1) => (.error .typeError, s1)
  | some n =>
    let (bs, s1) := readBytes s n
    (.ok (convertListToString bs), s1)

/-- The four bytes appended by `writeInt`: four rounds of
`(integer & 0xFF000000) >> 24` with `integer <<= 8` in between, rendered
arithmetically. -/
def int32be (n : Nat) : List Nat :=
  [n / 16777216 % 256, n * 256 / 16777216 % 256,
   n * 65536 / 16777216 % 256, n * 16777216 / 16777216 % 256]

/-- Embedding of `writeInt` in append mode (`byteOffset == -1`): append the
four big-endian bytes directly to the buffer (no range checks, never
fails). -/
def writeInt (s : ObjectStream) (integer : Nat) : ObjectStream :=
  ⟨s.ident, s.data ++ int32be integer, s.offset⟩

/-- One in-place byte store `self.data[i] = b` (`IndexError` past the
end). -/
def setByteAt (s : ObjectStream) (i b : Nat) : Except Err Unit × ObjectStream :=
  if i < s.data.length then (.ok (), ⟨s.ident, s.data.set i b, s.offset⟩)
  else (.error .indexError, s)

/-- Embedding of `writeInt` with an explicit `byteOffset` (the deferred
patch produced by `__reserveBytes`): store the four big-endian bytes at
`byteOffset .. byteOffset+3`, left to right, failing (and keeping the
stores already done) at the first out-of-range index. -/
def writeIntAt (s : ObjectStream) (integer : Nat) (byteOffset : Nat) : Except Err Unit × ObjectStream :=
  match setByteAt s byteOffset (integer / 16777216 % 256) with
  | (.error e, s1) => (.error e, s1)
  | (.ok _, s1) =>
    match setByteAt s1 (byteOffset + 1) (integer * 256 / 16777216 % 256) with
    | (.error e, s2) => (.error e, s2)
    | (.ok _, s2) =>
      match setByteAt s2 (byteOffset + 2) (integer * 65536 / 16777216 % 256) with
      | (.error e, s3) => (.error e, s3)
      | (.ok _, s3) => setByteAt s3 (byteOffset + 3) (integer * 16777216 / 16777216 % 256)

/-- Embedding of `readInt` in cursor mode: four `readByte`s folded
big-endian (`integer = (integer << 8) + byte`). -/
def readInt (s : ObjectStream) : Except Err Nat × ObjectStream :=
  match readByte s with
  | (.error e, s1) => (.error e, s1)
  | (.ok b0, s1) =>
    match readByte s1 with
    | (.error e, s2) => (.error e, s2)
    | (.ok b1, s2) =>
      match readByte s2 with
      | (.error e, s3) => (.error e, s3)
      | (.ok b2, s3) =>
        match readByte s3 with
        | (.error e, s4) => (.error e, s4)
        | (.ok b3, s4) => (.ok (((b0 * 256 + b1) * 256 + b2) * 256 + b3), s4)

/-- Embedding of `readInt` with an explicit `byteOffset`: four non-advancing
`readByte`s at consecutive offsets. -/
def readIntAt (s : ObjectStream) (byteOffset : Nat) : Except Err Nat :=
  match readByteAt s byteOffset with
  | .error e => .error e
  | .ok b0 =>
    match readByteAt s (byteOffset + 1) with
    | .error e => .error e
    | .ok b1 =>
      match readByteAt s (byteOffset + 2) with
      | .error e => .error e
      | .ok b2 =>
        match readByteAt s (byteOffset + 3) with
        | .error e => .error e
        | .ok b3 => .ok (((b0 * 256 + b1) * 256 + b2) * 256 + b3)

/-- Embedding of `writeToObjectStream(self, stream)`: version byte 0,
`self.offset` and `len(self.data)` as 4-byte integers, then the buffer
bytes (range-checked one by one by `writeBytes`). -/
def writeToObjectStream (self stream : ObjectStream) : Except Err Unit × ObjectStream :=
  match writeByte stream 0 with
  | (.error e, st1) => (.error e, st1)
  | (.ok _, st1) =>
    let st2 := writeInt st1 self.offset
    let st3 := writeInt st2 self.data.length
    writeBytes st3 self.data

/-- Embedding of `readFromObjectStream(self, stream)`.  The first line of
the source is `version = self.readByte()` — it reads from `self`, not from
`stream`; on the fresh empty instance `readObject` constructs, this raises
`IndexError` immediately.  The remaining lines set `self.offset` from a
4-byte integer read off `stream` and `self.data` from a length-prefixed
byte run.  Returns (state of `self`, state of `stream`). -/
def readFromObjectStream (self stream : ObjectStream) : Except Err Unit × (ObjectStream × ObjectStream) :=
  match readByte self with
  | (.error e, self1) => (.error e, (self1, stream))
  | (.ok _, self1) =>
    match readInt stream with
    | (.error e, stream1) => (.error e, (self1, stream1))
    | (.ok o, stream1) =>
      let self2 : ObjectStream := ⟨self1.ident, self1.data, o⟩
      match readInt stream1 with
      | (.error e, stream2) => (.error e, (self2, stream2))
      | (.ok n, stream2) =>
        let (bs, stream3) := readBytes stream2 n
        (.ok (), (⟨self2.ident, bs, self2.offset⟩, stream3))

/-- The identity comparison `self == obj` at the top of `writeObject`
(`ObjectStream` defines no `__eq__`, so `==` is object identity): true
exactly when `obj` is a stream with the receiver's identity tag. -/
def isSelfOf (s : ObjectStream) (v : PyValue) : Bool :=
  match v with
  | .pyStream i _ _ => i == s.ident
  | _ => false

mutual
/-- Embedding of `writeObject`: identity guard, type descriptor (two
Encoding-A strings), version byte 0, `__reserveBytes(4)` (inlined: remember
the patch position, append four zero bytes), the body by capability
dispatch (`writeToObjectStream` / `__dict__` walk / generic scalar), then
the deferred `writeInt(size, position)` patch with
`len(self.data) - currentSize`. -/
def writeObject (s : ObjectStream) (v : PyValue) : Except Err Unit × ObjectStream :=
  if isSelfOf s v then (.error .recursionError, s)
  else
    match writeUtf8 s (classOf v).1 with
    | (.error e, s1) => (.error e, s1)
    | (.ok _, s1) =>
      match writeUtf8 s1 (classOf v).2 with
      | (.error e, s2) => (.error e, s2)
      | (.ok _, s2) =>
        match writeByte s2 0 with
        | (.error e, s3) => (.error e, s3)
        | (.ok _, s3) =>
          let p := s3.data.length
          let s4 : ObjectStream := ⟨s3.ident, s3.data ++ [0, 0, 0, 0], s3.offset⟩
          let currentSize := s4.data.length
          match
            (match v with
             | .pyStream i d o => writeToObjectStream ⟨i, d, o⟩ s4
             | .pyObj _ _ fs =>
               (match writeByte s4 1 with
                | (.error e, t1) => (.error e, t1)
                | (.ok _, t1) => writeFields (writeInt t1 (flen fs)) fs)
             | _ =>
               (match writeByte s4 0 with
                | (.error e, t1) => (.error e, t1)
                | (.ok _, t1) =>
                  match jsonDumps v with
                  | .error e => (.error e, t1)
                  | .ok j => writeUtf8 t1 j)) with
          | (.error e, s5) => (.error e, s5)
          | (.ok _, s5) => writeIntAt s5 (s5.data.length - currentSize) p

/-- The `for variable, value in metadata.items()` loop of `writeObject`:
each field name as an Encoding-A string followed by a recursive
`writeObject` on the field value. -/
def writeFields (s : ObjectStream) (fs : PyFields) : Except Err Unit × ObjectStream :=
  match fs with
  | .nil => (.ok (), s)
  | .cons n v rest =>
    match writeUtf8 s n with
    | (.error e, s1) => (.error e, s1)
    | (.ok _, s1) =>
      match writeObject s1 v with
      | (.error e, s2) => (.error e, s2)
      | (.ok _, s2) => writeFields s2 rest
end

/-- The `while metadataSize > 0` loop of `readObject`: read a field name
(Encoding A) and a recursive object, `metadata.update({name: value})` per
iteration.  `rd` is the recursive reader at the remaining fuel. -/
def readFieldsAux (rd : ObjectStream → Except Err PyValue × ObjectStream) :
    Nat → PyFields → ObjectStream → Except Err PyFields × ObjectStream
  | 0, acc, s => (.ok acc, s)
  | count + 1, acc, s =>
    match readUtf8 s with
    | (.error e, s1) => (.error e, s1)
    | (.ok name, s1) =>
      match rd s1 with
      | (.error e, s2) => (.error e, s2)
      | (.ok v, s2) => readFieldsAux rd count (dictInsert acc name v) s2

/-- Embedding of `readObject`: type descriptor, version byte, 4-byte data
size (read but never used), `Utils.getClass` lookup, then either the
stream-codec path (`objectClass()` then `readFromObjectStream` — on the
fresh empty instance this raises `IndexError`), or the flag byte: flag 0
decodes the generic scalar string through the codec, any other flag reads
the field count and the `(name, readObject())` pairs into a dictionary and
applies it to a fresh instance's `__dict__` (instances of the scalar
builtins have no `__dict__`, so that update raises `AttributeError`). -/
def readObject : Nat → ObjectStream → Except Err PyValue × ObjectStream
  | 0, s => (.error .fuelOut, s)
  | fuel + 1, s =>
    match readUtf8 s with
    | (.error e, s1) => (.error e, s1)
    | (.ok moduleName, s1) =>
      match readUtf8 s1 with
      | (.error e, s2) => (.error e, s2)
      | (.ok className, s2) =>
        match readByte s2 with
        | (.error e, s3) => (.error e, s3)
        | (.ok _, s3) =>
          match readInt s3 with
          | (.error e, s4) => (.error e, s4)
          | (.ok _, s4) =>
            match getClass moduleName className with
            | .error e => (.error e, s4)
            | .ok .streamKind =>
              match readFromObjectStream ⟨0, [], 0⟩ s4 with
              | (.error e, (_, s5)) => (.error e, s5)
              | (.ok _, (self, s5)) => (.ok (.pyStream 0 self.data self.offset), s5)
            | .ok kind =>
              match readByte s4 with
              | (.error e, s5) => (.error e, s5)
              | (.ok flag, s5) =>
                if flag = 0 then
                  match readUtf8 s5 with
                  | (.error e, s6) => (.error e, s6)
                  | (.ok j, s6) =>
                    match jsonLoads j with
                    | .error e => (.error e, s6)
                    | .ok v => (.ok v, s6)
                else
                  match readInt s5 with
                  | (.error e, s6) => (.error e, s6)
                  | (.ok count, s6) =>
                    match readFieldsAux (readObject fuel) count .nil s6 with
                    | (.error e, s7) => (.error e, s7)
                    | (.ok metadata, s7) =>
                      match kind with
                      | .plainKind => (.ok (.pyObj moduleName className (dictUpdate .nil metadata)), s7)
                      | _ => (.error .attributeError, s7)

/-! ## Byte-layout functions (proof side)

Pure descriptions of the bytes `writeObject` appends, proved equal to the
operational writer below and consumed by the reader lemmas. -/

/-- The frame metadata: module string, class string (Encoding A with
terminators) and the version byte. -/
def encMeta (v : PyValue) : List Nat :=
  (classOf v).1 ++ 0 :: (classOf v).2 ++ [0, 0]

mutual
/-- The payload (body) bytes of a frame: the stream-codec body, the
composite body (flag 1, field count, fields), or the generic scalar body
(flag 0, codec string with terminator). -/
def encBody : PyValue → List Nat
  | .pyStream _ d o => 0 :: (int32be o ++ int32be d.length ++ d)
  | .pyObj _ _ fs => 1 :: (int32be (flen fs) ++ encFields fs)
  | v => 0 :: (jdump v ++ [0])
/-- The bytes of a composite body's field list: per field the Encoding-A
name and a full nested frame. -/
def encFields : PyFields → List Nat
  | .nil => []
  | .cons n v rest =>
    n ++ 0 :: (encMeta v ++ int32be (encBody v).length ++ encBody v) ++ encFields rest
end

/-- The full frame bytes: metadata, the back-patched 4-byte body length,
the body. -/
def encFrame (v : PyValue) : List Nat :=
  encMeta v ++ int32be (encBody v).length ++ encBody v

/-- Unfolding of `encFields` on a cons in terms of `encFrame`. -/
theorem encFields_cons (n : List Nat) (v : PyValue) (rest : PyFields) :
    encFields (.cons n v rest) = n ++ 0 :: encFrame v ++ encFields rest := by
  simp [encFields, encFrame]

mutual
/-- Fuel adequate for `readObject` on this value: nesting depth of the
composite structure. -/
def depth : PyValue → Nat
  | .pyObj _ _ fs => depthF fs + 1
  | _ => 1
/-- Fuel adequate for the field loop: maximal depth of the field values. -/
def depthF : PyFields → Nat
  | .nil => 0
  | .cons _ v rest => max (depth v) (depthF rest)
end

/-- Every code point positive and at most 255: survives a round trip
through Encoding A (and its write does not hit the broken escape path). -/
def inA (cs : List Nat) : Bool := cs.all (fun c => decide (0 < c) && decide (c ≤ 255))

/-- The registry resolves this descriptor to a plain zero-argument class. -/
def getClassIsPlain (m c : List Nat) : Bool :=
  match getClass m c with
  | .ok .plainKind => true
  | _ => false

mutual
/-- The values for which the claims' round trip is provable: scalars the
generic-value codec round-trips, and composites whose type descriptor
resolves to a plain zero-argument class, with Encoding-A-safe distinct
field names, a field count under `2^32`, and recursively serializable
field values.  `None` is excluded (its read fails: `NoneType` is not in
`builtins`) and so are nested streams (their read always fails, see
`readFromObjectStream`). -/
def serializableB : PyValue → Bool
  | .pyInt n => jsonOkB (.pyInt n)
  | .pyBool b => jsonOkB (.pyBool b)
  | .pyNone => false
  | .pyStr cs => jsonOkB (.pyStr cs)
  | .pyStream _ _ _ => false
  | .pyObj m c fs =>
    inA m && inA c && getClassIsPlain m c &&
      decide ((fieldNames fs).Nodup) && decide (flen fs < 4294967296) && serializableFB fs
/-- Serializability of a field list: Encoding-A-safe names and serializable
values. -/
def serializableFB : PyFields → Bool
  | .nil => true
  | .cons n v rest => inA n && serializableB v && serializableFB rest
end

/-- The scalar shapes of the embedding that the amended round-trip claim
covers (`None` deliberately not among them). -/
def isScalarB : PyValue → Bool
  | .pyInt _ => true
  | .pyBool _ => true
  | .pyStr _ => true
  | _ => false

/-! ## List helpers -/

theorem set_append_len (a b : List Nat) (i v : Nat) :
    (a ++ b).set (a.length + i) v = a ++ b.set i v := by
  induction a with
  | nil => simp
  | cons x xs ih => simp [List.set, Nat.succ_add, ih]

theorem drop_shift {D X t : List Nat} {i : Nat} (h : D.drop i = X ++ t) :
    D.drop (i + X.length) = t := by
  rw [← List.drop_drop, h]
  exact List.drop_left X t

theorem drop_succ {D t : List Nat} {i b : Nat} (h : D.drop i = b :: t) :
    D.drop (i + 1) = t := by
  have h2 : D.drop i = [b] ++ t := by simpa using h
  simpa using drop_shift h2

theorem drop_ne_nil_lt {D : List Nat} {i : Nat} {b : Nat} {t : List Nat}
    (h : D.drop i = b :: t) : i < D.length := by
  by_contra hle
  rw [List.drop_eq_nil_of_le (by omega)] at h
  exact List.noConfusion h

/-! ## Codec facts -/

theorem jsonOk_dumps {v : PyValue} (h : jsonOkB v = true) : jsonDumps v = .ok (jdump v) := by
  unfold jsonOkB at h
  unfold jdump
  cases hj : jsonDumps v <;> rw [hj] at h <;> simp_all

theorem jsonOk_chars {v : PyValue} (h : jsonOkB v = true) :
    ∀ c ∈ jdump v, 0 < c ∧ c ≤ 255 := by
  unfold jsonOkB at h
  unfold jdump
  cases hj : jsonDumps v with
  | error e => rw [hj] at h; simp_all
  | ok j =>
    rw [hj] at h
    intro c hc
    have h1 := (Bool.and_eq_true _ _).mp h |>.1
    rw [List.all_eq_true] at h1
    have := h1 c hc
    simp_all

theorem jsonOk_loads {v : PyValue} (h : jsonOkB v = true) : jsonLoads (jdump v) = .ok v := by
  unfold jsonOkB at h
  unfold jdump
  cases hj : jsonDumps v with
  | error e => rw [hj] at h; simp_all
  | ok j =>
    rw [hj] at h
    have h2 := (Bool.and_eq_true _ _).mp h |>.2
    cases hl : jsonLoads j <;> rw [hl] at h2 <;> simp_all

theorem convertStringToUtf8Bytes_ok {cs : List Nat} (h : ∀ c ∈ cs, c ≤ 255) :
    convertStringToUtf8Bytes cs = .ok cs := by
  induction cs with
  | nil => rfl
  | cons c rest ih =>
    have hc : c ≤ 255 := h c (by simp)
    rw [convertStringToUtf8Bytes]
    rw [if_neg (by omega)]
    rw [ih (fun d hd => h d (by simp [hd]))]

/-! ## Primitive operation lemmas -/

theorem writeByte_ok (s : ObjectStream) (b : Nat) (h : b ≤ 255) :
    writeByte s b = (.ok (), ⟨s.ident, s.data ++ [b], s.offset⟩) := by
  rw [writeByte, if_neg (by omega)]

theorem writeUtf8_ok (s : ObjectStream) (cs : List Nat) (h : ∀ c ∈ cs, c ≤ 255) :
    writeUtf8 s cs = (.ok (), ⟨s.ident, s.data ++ cs ++ [0], s.offset⟩) := by
  rw [writeUtf8, convertStringToUtf8Bytes_ok h]

theorem setByteAt_at (id off v w : Nat) (a b : List Nat) :
    setByteAt ⟨id, a ++ w :: b, off⟩ a.length v = (.ok (), ⟨id, a ++ v :: b, off⟩) := by
  rw [setByteAt]
  rw [if_pos (by simp)]
  have h := set_append_len a (w :: b) 0 v
  simp at h
  simp [h]

theorem writeIntAt_patch (id off n : Nat) (x0 x1 x2 x3 : Nat) (a b : List Nat) :
    writeIntAt ⟨id, a ++ x0 :: x1 :: x2 :: x3 :: b, off⟩ n a.length =
      (.ok (), ⟨id, a ++ int32be n ++ b, off⟩) := by
  have h1 := setByteAt_at id off (n / 16777216 % 256) x0 a (x1 :: x2 :: x3 :: b)
  have h2 : setByteAt ⟨id, a ++ n / 16777216 % 256 :: x1 :: x2 :: x3 :: b, off⟩
      (a.length + 1) (n * 256 / 16777216 % 256) =
      (.ok (), ⟨id, a ++ n / 16777216 % 256 :: n * 256 / 16777216 % 256 :: x2 :: x3 :: b, off⟩) := by
    have := setByteAt_at id off (n * 256 / 16777216 % 256) x1
      (a ++ [n / 16777216 % 256]) (x2 :: x3 :: b)
    simpa using this
  have h3 : setByteAt ⟨id, a ++ n / 16777216 % 256 :: n * 256 / 16777216 % 256 :: x2 :: x3 :: b, off⟩
      (a.length + 1 + 1) (n * 65536 / 16777216 % 256) =
      (.ok (), ⟨id, a ++ n / 16777216 % 256 :: n * 256 / 16777216 % 256 ::
        n * 65536 / 16777216 % 256 :: x3 :: b, off⟩) := by
    have := setByteAt_at id off (n * 65536 / 16777216 % 256) x2
      (a ++ [n / 16777216 % 256, n * 256 / 16777216 % 256]) (x3 :: b)
    simpa [Nat.add_assoc] using this
  have h4 : setByteAt ⟨id, a ++ n / 16777216 % 256 :: n * 256 / 16777216 % 256 ::
      n * 65536 / 16777216 % 256 :: x3 :: b, off⟩
      (a.length + 1 + 1 + 1) (n * 16777216 / 16777216 % 256) =
      (.ok (), ⟨id, a ++ n / 16777216 % 256 :: n * 256 / 16777216 % 256 ::
        n * 65536 / 16777216 % 256 :: n * 16777216 / 16777216 % 256 :: b, off⟩) := by
    have := setByteAt_at id off (n * 16777216 / 16777216 % 256) x3
      (a ++ [n / 16777216 % 256, n * 256 / 16777216 % 256, n * 65536 / 16777216 % 256]) b
    simpa [Nat.add_assoc] using this
  simp only [writeIntAt, h1, h2, h3, h4, int32be]
  simp

theorem readByte_spec (s : ObjectStream) (b : Nat) (t : List Nat)
    (h : s.data.drop s.offset = b :: t) :
    readByte s = (.ok b, ⟨s.ident, s.data, s.offset + 1⟩) := by
  have hb : s.data[s.offset]? = some b := by
    have h0 := congrArg (fun l => l[0]?) h
    simpa using h0
  simp [readByte, hb]

theorem readInt_spec (s : ObjectStream) (b0 b1 b2 b3 : Nat) (t : List Nat)
    (h : s.data.drop s.offset = b0 :: b1 :: b2 :: b3 :: t) :
    readInt s = (.ok (((b0 * 256 + b1) * 256 + b2) * 256 + b3), ⟨s.ident, s.data, s.offset + 4⟩) := by
  have h1 := drop_succ h
  have h2 := drop_succ h1
  have h3 := drop_succ h2
  rw [readInt, readByte_spec _ _ _ h]
  dsimp only
  rw [readByte_spec _ _ _ h1]
  dsimp only
  rw [readByte_spec _ _ _ h2]
  dsimp only
  rw [readByte_spec _ _ _ h3]

theorem readBytes_spec (s : ObjectStream) (bs t : List Nat)
    (h : s.data.drop s.offset = bs ++ t) :
    readBytes s bs.length = (bs, ⟨s.ident, s.data, s.offset + bs.length⟩) := by
  simp [readBytes, h, List.take_left]

theorem readUtf8Loop_term (mid : List Nat) :
    ∀ (fuel id i : Nat) (D rest acc : List Nat) (prev cur : Nat),
      prev ≠ 0 → cur ≠ 0 → (∀ c ∈ mid, c ≠ 0) →
      D.drop i = mid ++ 0 :: rest →
      D.length - i < fuel →
      readUtf8Loop fuel ⟨id, D, i⟩ prev cur acc =
        (.ok (acc ++ cur :: mid), ⟨id, D, i + (mid.length + 1)⟩) := by
  induction mid with
  | nil =>
    intro fuel id i D rest acc prev cur hp hc _ hdrop hfuel
    have hd0 : D.drop i = 0 :: rest := by simpa using hdrop
    have hi : i < D.length := drop_ne_nil_lt hd0
    cases fuel with
    | zero => omega
    | succ f =>
      rw [readUtf8Loop, if_pos ⟨by simp [getRemainingByteCount]; omega, hp, hc⟩,
        readByte_spec _ _ _ hd0]
      dsimp only
      cases f with
      | zero => omega
      | succ f2 =>
        rw [readUtf8Loop, if_neg (by simp)]
        simp
  | cons m ms ih =>
    intro fuel id i D rest acc prev cur hp hc hmid hdrop hfuel
    have hd1 : D.drop i = m :: (ms ++ 0 :: rest) := by simpa using hdrop
    have hi : i < D.length := drop_ne_nil_lt hd1
    cases fuel with
    | zero => omega
    | succ f =>
      rw [readUtf8Loop, if_pos ⟨by simp [getRemainingByteCount]; omega, hp, hc⟩,
        readByte_spec _ _ _ hd1]
      dsimp only
      rw [ih f id (i + 1) D rest (acc ++ [cur]) cur m hc (hmid m (by simp))
        (fun c hcn => hmid c (by simp [hcn])) (drop_succ hd1) (by omega)]
      simp [Nat.add_assoc]
      omega

theorem readUtf8Loop_noterm (tail : List Nat) :
    ∀ (fuel id i : Nat) (D acc : List Nat) (prev cur : Nat),
      prev ≠ 0 → cur ≠ 0 → (∀ c ∈ tail, c ≠ 0) →
      D.drop i = tail →
      D.length - i < fuel →
      readUtf8Loop fuel ⟨id, D, i⟩ prev cur acc =
        (.ok (acc ++ (cur :: tail).dropLast), ⟨id, D, i + tail.length⟩) := by
  induction tail with
  | nil =>
    intro fuel id i D acc prev cur hp hc _ hdrop hfuel
    have hlen : D.length - i = 0 := by
      have := congrArg List.length hdrop
      simpa using this
    cases fuel with
    | zero => omega
    | succ f =>
      rw [readUtf8Loop, if_neg (by simp [getRemainingByteCount]; omega)]
      simp
  | cons t ts ih =>
    intro fuel id i D acc prev cur hp hc htail hdrop hfuel
    have hi : i < D.length := drop_ne_nil_lt hdrop
    cases fuel with
    | zero => omega
    | succ f =>
      rw [readUtf8Loop, if_pos ⟨by simp [getRemainingByteCount]; omega, hp, hc⟩,
        readByte_spec _ _ _ hdrop]
      dsimp only
      rw [ih f id (i + 1) D (acc ++ [cur]) cur t hc (htail t (by simp))
        (fun c hcn => htail c (by simp [hcn])) (drop_succ hdrop) (by omega)]
      simp [Nat.add_assoc]
      omega

theorem readUtf8_spec (s : ObjectStream) (cs rest : List Nat)
    (hnz : ∀ c ∈ cs, c ≠ 0)
    (h : s.data.drop s.offset = cs ++ 0 :: rest) :
    readUtf8 s = (.ok cs, ⟨s.ident, s.data, s.offset + (cs.length + 1)⟩) := by
  cases cs with
  | nil =>
    rw [readUtf8, readByte_spec _ _ _ (by simpa using h)]
    dsimp only
    rw [if_pos rfl]
    simp
  | cons c1 cs1 =>
    have hd1 : s.data.drop s.offset = c1 :: (cs1 ++ 0 :: rest) := by simpa using h
    have hc1 : c1 ≠ 0 := hnz c1 (by simp)
    rw [readUtf8, readByte_spec _ _ _ hd1]
    dsimp only
    rw [if_neg hc1]
    cases cs1 with
    | nil =>
      rw [readByte_spec _ 0 rest (by simpa using drop_succ hd1)]
      dsimp only
      rw [readUtf8Loop, if_neg (by simp)]
      simp [Nat.add_assoc]
    | cons c2 cs2 =>
      rw [readByte_spec _ c2 (cs2 ++ 0 :: rest) (by simpa using drop_succ hd1)]
      dsimp only
      rw [readUtf8Loop_term cs2 _ s.ident (s.offset + 1 + 1) s.data rest [c1] c1 c2
        hc1 (hnz c2 (by simp)) (fun c hcn => hnz c (by simp [hcn]))
        (by simpa using drop_succ (show s.data.drop (s.offset + 1) = c2 :: (cs2 ++ 0 :: rest) from by simpa using drop_succ hd1))
        (by simp [getRemainingByteCount])]
      simp [Nat.add_assoc]
      omega

/-! ## Writer specification -/

theorem int32be_length (n : Nat) : (int32be n).length = 4 := rfl

theorem inA_spec {cs : List Nat} (h : inA cs = true) : ∀ c ∈ cs, 0 < c ∧ c ≤ 255 := by
  intro c hc
  unfold inA at h
  rw [List.all_eq_true] at h
  have := h c hc
  simp_all

/-- The deferred length patch applied to a scalar frame in the exact shape
the writer produces it. -/
theorem writeIntAt_scalar_frame (id off : Nat) (X j : List Nat) :
    writeIntAt ⟨id, (((X ++ [0, 0, 0, 0]) ++ [0]) ++ j) ++ [0], off⟩
        (((((X ++ [0, 0, 0, 0]) ++ [0]) ++ j) ++ [0]).length - (X ++ [0, 0, 0, 0]).length)
        X.length =
      (.ok (), ⟨id, X ++ int32be (j.length + 1 + 1) ++ 0 :: (j ++ [0]), off⟩) := by
  have hn : ((((X ++ [0, 0, 0, 0]) ++ [0]) ++ j) ++ [0]).length - (X ++ [0, 0, 0, 0]).length
      = j.length + 1 + 1 := by
    simp
    omega
  rw [hn]
  have h := writeIntAt_patch id off (j.length + 1 + 1) 0 0 0 0 X (0 :: (j ++ [0]))
  rw [show ((((X ++ [0, 0, 0, 0]) ++ [0]) ++ j) ++ [0] : List Nat)
      = X ++ 0 :: 0 :: 0 :: 0 :: 0 :: (j ++ [0]) from by simp]
  simpa using h

/-- The deferred length patch applied to a composite frame in the exact
shape the writer produces it. -/
theorem writeIntAt_composite_frame (id off k : Nat) (X F : List Nat) :
    writeIntAt ⟨id, ((X ++ [0, 0, 0, 0]) ++ [1]) ++ int32be k ++ F, off⟩
        ((((X ++ [0, 0, 0, 0]) ++ [1]) ++ int32be k ++ F).length - (X ++ [0, 0, 0, 0]).length)
        X.length =
      (.ok (), ⟨id, X ++ int32be (4 + F.length + 1) ++ 1 :: (int32be k ++ F), off⟩) := by
  have hn : (((X ++ [0, 0, 0, 0]) ++ [1]) ++ int32be k ++ F).length - (X ++ [0, 0, 0, 0]).length
      = 4 + F.length + 1 := by
    simp [int32be]
    omega
  rw [hn]
  have h := writeIntAt_patch id off (4 + F.length + 1) 0 0 0 0 X (1 :: (int32be k ++ F))
  rw [show (((X ++ [0, 0, 0, 0]) ++ [1]) ++ int32be k ++ F : List Nat)
      = X ++ 0 :: 0 :: 0 :: 0 :: 1 :: (int32be k ++ F) from by simp]
  simpa using h

/-- The writer on a codec-round-trippable scalar appends exactly the
scalar frame. -/
theorem writeObject_scalar (v : PyValue) (s : ObjectStream) (hsc : isScalarB v = true)
    (hj : jsonOkB v = true) :
    writeObject s v = (.ok (), ⟨s.ident, s.data ++ encFrame v, s.offset⟩) := by
  have hd := jsonOk_dumps hj
  have hch := jsonOk_chars hj
  cases v with
  | pyInt n =>
    rw [writeObject, if_neg (by simp [isSelfOf])]
    dsimp only [classOf]
    rw [writeUtf8_ok _ _ (show ∀ c ∈ strCodes ("builtins"), c ≤ 255 from by decide)]
    dsimp only
    rw [writeUtf8_ok _ _ (show ∀ c ∈ strCodes ("int"), c ≤ 255 from by decide)]
    dsimp only
    rw [writeByte_ok _ 0 (by omega)]
    dsimp only
    rw [writeByte_ok _ 0 (by omega)]
    dsimp only
    rw [hd]
    dsimp only
    rw [writeUtf8_ok _ _ (show ∀ c ∈ jdump (.pyInt n), c ≤ 255 from fun c hc => (hch c hc).2)]
    dsimp only
    rw [writeIntAt_scalar_frame]
    simp [encFrame, encMeta, encBody, classOf, List.append_assoc]
  | pyBool b =>
    rw [writeObject, if_neg (by simp [isSelfOf])]
    dsimp only [classOf]
    rw [writeUtf8_ok _ _ (show ∀ c ∈ strCodes ("builtins"), c ≤ 255 from by decide)]
    dsimp only
    rw [writeUtf8_ok _ _ (show ∀ c ∈ strCodes ("bool"), c ≤ 255 from by decide)]
    dsimp only
    rw [writeByte_ok _ 0 (by omega)]
    dsimp only
    rw [writeByte_ok _ 0 (by omega)]
    dsimp only
    rw [hd]
    dsimp only
    rw [writeUtf8_ok _ _ (show ∀ c ∈ jdump (.pyBool b), c ≤ 255 from fun c hc => (hch c hc).2)]
    dsimp only
    rw [writeIntAt_scalar_frame]
    simp [encFrame, encMeta, encBody, classOf, List.append_assoc]
  | pyStr cs =>
    rw [writeObject, if_neg (by simp [isSelfOf])]
    dsimp only [classOf]
    rw [writeUtf8_ok _ _ (show ∀ c ∈ strCodes ("builtins"), c ≤ 255 from by decide)]
    dsimp only
    rw [writeUtf8_ok _ _ (show ∀ c ∈ strCodes ("str"), c ≤ 255 from by decide)]
    dsimp only
    rw [writeByte_ok _ 0 (by omega)]
    dsimp only
    rw [writeByte_ok _ 0 (by omega)]
    dsimp only
    rw [hd]
    dsimp only
    rw [writeUtf8_ok _ _ (show ∀ c ∈ jdump (.pyStr cs), c ≤ 255 from fun c hc => (hch c hc).2)]
    dsimp only
    rw [writeIntAt_scalar_frame]
    simp [encFrame, encMeta, encBody, classOf, List.append_assoc]
  | pyNone => simp [isScalarB] at hsc
  | pyStream i d o => simp [isScalarB] at hsc
  | pyObj m c fs => simp [isScalarB] at hsc

mutual
/-- The writer on a serializable value appends exactly `encFrame` and
succeeds, leaving the cursor alone. -/
theorem writeObject_spec (v : PyValue) (hv : serializableB v = true) (s : ObjectStream) :
    writeObject s v = (.ok (), ⟨s.ident, s.data ++ encFrame v, s.offset⟩) := by
  cases v with
  | pyInt n => exact writeObject_scalar _ _ (by simp [isScalarB]) (by simpa [serializableB] using hv)
  | pyBool b => exact writeObject_scalar _ _ (by simp [isScalarB]) (by simpa [serializableB] using hv)
  | pyStr cs => exact writeObject_scalar _ _ (by simp [isScalarB]) (by simpa [serializableB] using hv)
  | pyNone => simp [serializableB] at hv
  | pyStream i d o => simp [serializableB] at hv
  | pyObj m c fs =>
    rw [serializableB] at hv
    simp only [Bool.and_eq_true] at hv
    obtain ⟨⟨⟨⟨⟨h1, h2⟩, h3⟩, h4⟩, h5⟩, h6⟩ := hv
    rw [writeObject, if_neg (by simp [isSelfOf])]
    dsimp only [classOf]
    rw [writeUtf8_ok _ _ (show ∀ d ∈ m, d ≤ 255 from fun d hd => (inA_spec h1 d hd).2)]
    dsimp only
    rw [writeUtf8_ok _ _ (show ∀ d ∈ c, d ≤ 255 from fun d hd => (inA_spec h2 d hd).2)]
    dsimp only
    rw [writeByte_ok _ 0 (by omega)]
    dsimp only
    rw [writeByte_ok _ 1 (by omega)]
    dsimp only [writeInt]
    rw [writeFields_spec fs h6]
    dsimp only
    rw [writeIntAt_composite_frame]
    simp [encFrame, encMeta, encBody, classOf, int32be_length, List.append_assoc]

/-- The field-loop writer on serializable fields appends exactly
`encFields`. -/
theorem writeFields_spec (fs : PyFields) (hfs : serializableFB fs = true) (s : ObjectStream) :
    writeFields s fs = (.ok (), ⟨s.ident, s.data ++ encFields fs, s.offset⟩) := by
  cases fs with
  | nil => simp [writeFields, encFields]
  | cons n v rest =>
    rw [serializableFB] at hfs
    simp only [Bool.and_eq_true] at hfs
    obtain ⟨⟨hn, hv⟩, hrest⟩ := hfs
    rw [writeFields]
    rw [writeUtf8_ok _ _ (fun d hd => (inA_spec hn d hd).2)]
    dsimp only
    rw [writeObject_spec v hv]
    dsimp only
    rw [writeFields_spec rest hrest]
    simp [encFields_cons, List.append_assoc]
end

/-! ## Reader specification -/

theorem drop_past_str {D cs t : List Nat} {i : Nat} (h : D.drop i = cs ++ 0 :: t) :
    D.drop (i + (cs.length + 1)) = t := by
  have h2 : D.drop i = (cs ++ [0]) ++ t := by simpa using h
  have h3 := drop_shift h2
  simpa using h3

theorem drop_past4 {D t : List Nat} {i b0 b1 b2 b3 : Nat}
    (h : D.drop i = b0 :: b1 :: b2 :: b3 :: t) : D.drop (i + 4) = t := by
  rw [show i + 4 = i + 1 + 1 + 1 + 1 from by omega]
  exact drop_succ (drop_succ (drop_succ (drop_succ h)))

/-- Reading back the four bytes of `int32be n` recovers `n` when it fits in
four bytes. -/
theorem int32_fold (n : Nat) (h : n < 4294967296) :
    ((n / 16777216 % 256 * 256 + n * 256 / 16777216 % 256) * 256 +
      n * 65536 / 16777216 % 256) * 256 + n * 16777216 / 16777216 % 256 = n := by
  have e1 : n * 256 / 16777216 = n / 65536 := by
    rw [show (16777216 : Nat) = 65536 * 256 from rfl]
    rw [Nat.mul_div_mul_right _ _ (by omega)]
  have e2 : n * 65536 / 16777216 = n / 256 := by
    rw [show (16777216 : Nat) = 256 * 65536 from rfl]
    rw [Nat.mul_div_mul_right _ _ (by omega)]
  have e3 : n * 16777216 / 16777216 = n := by
    rw [Nat.mul_div_cancel _ (by omega)]
  rw [e1, e2, e3]
  omega

theorem getClass_plain {m c : List Nat} (h : getClassIsPlain m c = true) :
    getClass m c = .ok .plainKind := by
  unfold getClassIsPlain at h
  cases hg : getClass m c with
  | error e => rw [hg] at h; simp at h
  | ok k => cases k <;> rw [hg] at h <;> simp_all

theorem fieldNames_fappend : ∀ (a b : PyFields),
    fieldNames (fappend a b) = fieldNames a ++ fieldNames b
  | .nil, b => by simp [fappend, fieldNames]
  | .cons n v r, b => by simp [fappend, fieldNames, fieldNames_fappend r b]

theorem fappend_nil : ∀ a : PyFields, fappend a .nil = a
  | .nil => rfl
  | .cons n v r => by simp [fappend, fappend_nil r]

theorem dictInsert_fresh : ∀ (acc : PyFields) (n : List Nat) (v : PyValue),
    n ∉ fieldNames acc → dictInsert acc n v = fappend acc (.cons n v .nil)
  | .nil, n, v, _ => rfl
  | .cons m w r, n, v, h => by
    rw [dictInsert, fappend]
    rw [if_neg (by simp [fieldNames] at h; exact fun e => h.1 e.symm)]
    rw [dictInsert_fresh r n v (by simp [fieldNames] at h; exact h.2)]

theorem fappend_single : ∀ (acc : PyFields) (n : List Nat) (v : PyValue) (rest : PyFields),
    fappend (fappend acc (.cons n v .nil)) rest = fappend acc (.cons n v rest)
  | .nil, _, _, _ => rfl
  | .cons m w r, n, v, rest => by simp [fappend, fappend_single r n v rest]

theorem dictUpdate_fresh : ∀ (fs : PyFields) (acc : PyFields),
    (∀ k ∈ fieldNames fs, k ∉ fieldNames acc) →
      (fieldNames fs).Nodup → dictUpdate acc fs = fappend acc fs
  | .nil, acc, _, _ => by rw [dictUpdate, fappend_nil]
  | .cons n v rest, acc, hfresh, hnd => by
    rw [dictUpdate]
    rw [dictInsert_fresh acc n v (hfresh n (by simp [fieldNames]))]
    rw [dictUpdate_fresh rest (fappend acc (.cons n v .nil))
      (by
        intro k hk
        rw [fieldNames_fappend]
        simp [fieldNames]
        constructor
        · exact hfresh k (by simp [fieldNames, hk])
        · intro e
          rw [fieldNames] at hnd
          rcases List.nodup_cons.mp hnd with ⟨hnin, _⟩
          exact hnin (e ▸ hk))
      (by rw [fieldNames] at hnd; exact (List.nodup_cons.mp hnd).2)]
    rw [fappend_single]

instance {ε α : Type} [DecidableEq ε] [DecidableEq α] : DecidableEq (Except ε α) := fun x y =>
  match x, y with
  | .ok a, .ok b => if h : a = b then .isTrue (by rw [h]) else .isFalse (by simp [h])
  | .error a, .error b => if h : a = b then .isTrue (by rw [h]) else .isFalse (by simp [h])
  | .ok _, .error _ => .isFalse (by simp)
  | .error _, .ok _ => .isFalse (by simp)

theorem readInt_int32be_any (s : ObjectStream) (n : Nat) (t : List Nat)
    (h : s.data.drop s.offset = int32be n ++ t) :
    readInt s = (.ok (((n / 16777216 % 256 * 256 + n * 256 / 16777216 % 256) * 256 +
      n * 65536 / 16777216 % 256) * 256 + n * 16777216 / 16777216 % 256),
      ⟨s.ident, s.data, s.offset + 4⟩) :=
  readInt_spec _ _ _ _ _ _ (by simpa [int32be] using h)

theorem readInt_int32be (s : ObjectStream) (n : Nat) (t : List Nat) (hn : n < 4294967296)
    (h : s.data.drop s.offset = int32be n ++ t) :
    readInt s = (.ok n, ⟨s.ident, s.data, s.offset + 4⟩) := by
  rw [readInt_int32be_any s n t h, int32_fold n hn]

theorem drop_past_int32 {D t : List Nat} {i n : Nat} (h : D.drop i = int32be n ++ t) :
    D.drop (i + 4) = t := by
  have h2 := drop_shift h
  simpa [int32be_length] using h2

/-- The reader on a frame of a codec-round-trippable scalar of class `int`,
`bool` or `str` returns the value and consumes exactly the frame. -/
theorem readObject_scalar (v : PyValue) (hsc : isScalarB v = true) (hj : jsonOkB v = true)
    (fuel id i : Nat) (D rest : List Nat) (hfuel : 1 ≤ fuel)
    (hdrop : D.drop i = encFrame v ++ rest) :
    readObject fuel ⟨id, D, i⟩ = (.ok v, ⟨id, D, i + (encFrame v).length⟩) := by
  have hch := jsonOk_chars hj
  have hld := jsonOk_loads hj
  cases fuel with
  | zero => omega
  | succ f =>
    cases v with
    | pyInt n =>
      have h0 := hdrop
      simp only [encFrame, encMeta, encBody, classOf, List.append_assoc, List.cons_append,
        List.nil_append] at h0
      rw [readObject]
      rw [readUtf8_spec _ _ _ (show ∀ c ∈ strCodes ("builtins"), c ≠ 0 from by decide) h0]
      dsimp only
      have h1 := drop_past_str h0
      rw [readUtf8_spec _ _ _ (show ∀ c ∈ strCodes ("int"), c ≠ 0 from by decide) h1]
      dsimp only
      have h2 := drop_past_str h1
      rw [readByte_spec _ _ _ h2]
      dsimp only
      have h3 := drop_succ h2
      rw [readInt_int32be_any _ _ _ h3]
      dsimp only
      rw [show getClass (strCodes ("builtins")) (strCodes ("int"))
        = Except.ok PyClassKind.scalarKind from by decide]
      dsimp only
      have h4 := drop_past_int32 h3
      rw [readByte_spec _ _ _ h4]
      dsimp only
      rw [if_pos rfl]
      have h5 := drop_succ h4
      rw [readUtf8_spec _ _ _ (fun c hc => (hch c hc).1.ne') h5]
      dsimp only
      rw [hld]
      simp only [encFrame, encMeta, encBody, classOf, List.length_append, List.length_cons,
        int32be_length, List.length_nil]
      refine Prod.ext rfl ?_
      simp only [ObjectStream.mk.injEq]
      refine ⟨trivial, trivial, by omega⟩
    | pyBool b =>
      have h0 := hdrop
      simp only [encFrame, encMeta, encBody, classOf, List.append_assoc, List.cons_append,
        List.nil_append] at h0
      rw [readObject]
      rw [readUtf8_spec _ _ _ (show ∀ c ∈ strCodes ("builtins"), c ≠ 0 from by decide) h0]
      dsimp only
      have h1 := drop_past_str h0
      rw [readUtf8_spec _ _ _ (show ∀ c ∈ strCodes ("bool"), c ≠ 0 from by decide) h1]
      dsimp only
      have h2 := drop_past_str h1
      rw [readByte_spec _ _ _ h2]
      dsimp only
      have h3 := drop_succ h2
      rw [readInt_int32be_any _ _ _ h3]
      dsimp only
      rw [show getClass (strCodes ("builtins")) (strCodes ("bool"))
        = Except.ok PyClassKind.scalarKind from by decide]
      dsimp only
      have h4 := drop_past_int32 h3
      rw [readByte_spec _ _ _ h4]
      dsimp only
      rw [if_pos rfl]
      have h5 := drop_succ h4
      rw [readUtf8_spec _ _ _ (fun c hc => (hch c hc).1.ne') h5]
      dsimp only
      rw [hld]
      simp only [encFrame, encMeta, encBody, classOf, List.length_append, List.length_cons,
        int32be_length, List.length_nil]
      refine Prod.ext rfl ?_
      simp only [ObjectStream.mk.injEq]
      refine ⟨trivial, trivial, by omega⟩
    | pyStr cs =>
      have h0 := hdrop
      simp only [encFrame, encMeta, encBody, classOf, List.append_assoc, List.cons_append,
        List.nil_append] at h0
      rw [readObject]
      rw [readUtf8_spec _ _ _ (show ∀ c ∈ strCodes ("builtins"), c ≠ 0 from by decide) h0]
      dsimp only
      have h1 := drop_past_str h0
      rw [readUtf8_spec _ _ _ (show ∀ c ∈ strCodes ("str"), c ≠ 0 from by decide) h1]
      dsimp only
      have h2 := drop_past_str h1
      rw [readByte_spec _ _ _ h2]
      dsimp only
      have h3 := drop_succ h2
      rw [readInt_int32be_any _ _ _ h3]
      dsimp only
      rw [show getClass (strCodes ("builtins")) (strCodes ("str"))
        = Except.ok PyClassKind.scalarKind from by decide]
      dsimp only
      have h4 := drop_past_int32 h3
      rw [readByte_spec _ _ _ h4]
      dsimp only
      rw [if_pos rfl]
      have h5 := drop_succ h4
      rw [readUtf8_spec _ _ _ (fun c hc => (hch c hc).1.ne') h5]
      dsimp only
      rw [hld]
      simp only [encFrame, encMeta, encBody, classOf, List.length_append, List.length_cons,
        int32be_length, List.length_nil]
      refine Prod.ext rfl ?_
      simp only [ObjectStream.mk.injEq]
      refine ⟨trivial, trivial, by omega⟩
    | pyNone => simp [isScalarB] at hsc
    | pyStream i2 d o => simp [isScalarB] at hsc
    | pyObj m c fs => simp [isScalarB] at hsc

mutual
/-- The reader on the frame of a serializable value, with fuel at least the
value's nesting depth, returns the value and consumes exactly the frame. -/
theorem readObject_spec (v : PyValue) (hv : serializableB v = true) (fuel id i : Nat)
    (D rest : List Nat) (hfuel : depth v ≤ fuel) (hdrop : D.drop i = encFrame v ++ rest) :
    readObject fuel ⟨id, D, i⟩ = (.ok v, ⟨id, D, i + (encFrame v).length⟩) := by
  cases v with
  | pyInt n =>
    exact readObject_scalar _ (by simp [isScalarB]) (by simpa [serializableB] using hv)
      fuel id i D rest (by simp [depth] at hfuel; omega) hdrop
  | pyBool b =>
    exact readObject_scalar _ (by simp [isScalarB]) (by simpa [serializableB] using hv)
      fuel id i D rest (by simp [depth] at hfuel; omega) hdrop
  | pyStr cs =>
    exact readObject_scalar _ (by simp [isScalarB]) (by simpa [serializableB] using hv)
      fuel id i D rest (by simp [depth] at hfuel; omega) hdrop
  | pyNone => simp [serializableB] at hv
  | pyStream i2 d o => simp [serializableB] at hv
  | pyObj m c fs =>
    rw [serializableB] at hv
    simp only [Bool.and_eq_true] at hv
    obtain ⟨⟨⟨⟨⟨h1, h2⟩, h3⟩, h4⟩, h5⟩, h6⟩ := hv
    have hnodup : (fieldNames fs).Nodup := of_decide_eq_true h4
    have hflen : flen fs < 4294967296 := of_decide_eq_true h5
    simp only [depth] at hfuel
    cases fuel with
    | zero => omega
    | succ f =>
      have h0 := hdrop
      simp only [encFrame, encMeta, encBody, classOf, List.append_assoc, List.cons_append,
        List.nil_append] at h0
      rw [readObject]
      rw [readUtf8_spec _ _ _ (fun d hd => (inA_spec h1 d hd).1.ne') h0]
      dsimp only
      have hd1 := drop_past_str h0
      rw [readUtf8_spec _ _ _ (fun d hd => (inA_spec h2 d hd).1.ne') hd1]
      dsimp only
      have hd2 := drop_past_str hd1
      rw [readByte_spec _ _ _ hd2]
      dsimp only
      have hd3 := drop_succ hd2
      rw [readInt_int32be_any _ _ _ hd3]
      dsimp only
      rw [getClass_plain h3]
      dsimp only
      have hd4 := drop_past_int32 hd3
      rw [readByte_spec _ _ _ hd4]
      dsimp only
      rw [if_neg (by omega)]
      have hd5 := drop_succ hd4
      rw [readInt_int32be _ _ _ hflen hd5]
      dsimp only
      have hd6 := drop_past_int32 hd5
      rw [readFields_spec fs h6 f id _ D rest .nil (by omega) hnodup
        (by simp [fieldNames]) hd6]
      dsimp only
      rw [show fappend .nil fs = fs from rfl]
      rw [dictUpdate_fresh fs .nil (by simp [fieldNames]) hnodup]
      rw [show fappend .nil fs = fs from rfl]
      simp only [encFrame, encMeta, encBody, classOf, List.length_append, List.length_cons,
        int32be_length, List.length_nil]
      refine Prod.ext rfl ?_
      simp only [ObjectStream.mk.injEq]
      refine ⟨trivial, trivial, by omega⟩

/-- The metadata loop of the reader on the serialized fields of a
serializable field list collects exactly those fields (appended to the
accumulator dictionary) and consumes exactly their bytes. -/
theorem readFields_spec (fs : PyFields) (hfs : serializableFB fs = true) (fuel id i : Nat)
    (D rest : List Nat) (acc : PyFields) (hfuel : depthF fs ≤ fuel)
    (hnd : (fieldNames fs).Nodup)
    (hfresh : ∀ k ∈ fieldNames fs, k ∉ fieldNames acc)
    (hdrop : D.drop i = encFields fs ++ rest) :
    readFieldsAux (readObject fuel) (flen fs) acc ⟨id, D, i⟩ =
      (.ok (fappend acc fs), ⟨id, D, i + (encFields fs).length⟩) := by
  cases fs with
  | nil =>
    rw [show flen .nil = 0 from rfl, readFieldsAux]
    rw [show fappend acc .nil = acc from fappend_nil acc]
    simp [encFields]
  | cons n v rest2 =>
    rw [serializableFB] at hfs
    simp only [Bool.and_eq_true] at hfs
    obtain ⟨⟨hn, hv⟩, hrest⟩ := hfs
    have h0 := hdrop
    rw [encFields_cons] at h0
    simp only [List.append_assoc, List.cons_append] at h0
    rw [show flen (.cons n v rest2) = flen rest2 + 1 from rfl, readFieldsAux]
    rw [readUtf8_spec _ _ _ (fun d hd => (inA_spec hn d hd).1.ne') h0]
    dsimp only
    have hd1 := drop_past_str h0
    rw [readObject_spec v hv fuel id _ D (encFields rest2 ++ rest)
      (by simp [depthF] at hfuel; omega) hd1]
    dsimp only
    have hd2 := drop_shift hd1
    rw [dictInsert_fresh acc n v (hfresh n (by simp [fieldNames]))]
    rw [readFields_spec rest2 hrest fuel id _ D rest (fappend acc (.cons n v .nil))
      (by simp [depthF] at hfuel; omega)
      (by rw [fieldNames] at hnd; exact (List.nodup_cons.mp hnd).2)
      (by
        intro k hk
        rw [fieldNames_fappend]
        simp [fieldNames]
        constructor
        · exact hfresh k (by simp [fieldNames, hk])
        · intro e
          rw [fieldNames] at hnd
          exact (List.nodup_cons.mp hnd).1 (e ▸ hk))
      hd2]
    rw [fappend_single]
    rw [encFields_cons]
    refine Prod.ext rfl ?_
    simp only [ObjectStream.mk.injEq]
    refine ⟨trivial, trivial, ?_⟩
    simp [List.length_append]
    omega
end

/-! ## Cursor invariant lemmas -/

/-- The ByteStream data-model invariant: the read cursor lies within
`[0, length]` (the lower bound is inherent to `Nat`). -/
def cursorOk (s : ObjectStream) : Prop := s.offset ≤ s.data.length

theorem readByte_inv (s : ObjectStream) (h : cursorOk s) :
    cursorOk (readByte s).2 ∧ (readByte s).2.data = s.data := by
  rw [readByte]
  cases hx : s.data[s.offset]? with
  | none => exact ⟨h, rfl⟩
  | some b =>
    have hlt : s.offset < s.data.length := by
      by_contra hc
      rw [List.getElem?_eq_none_iff.mpr (by omega)] at hx
      cases hx
    exact ⟨by simpa [cursorOk] using hlt, rfl⟩

theorem readInt_inv (s : ObjectStream) (h : cursorOk s) :
    cursorOk (readInt s).2 ∧ (readInt s).2.data = s.data := by
  rw [readInt]
  rcases hr1 : readByte s with ⟨r1, s1⟩
  have hi1 := readByte_inv s h
  rw [hr1] at hi1
  cases r1 with
  | error e => exact hi1
  | ok b0 =>
    dsimp only
    rcases hr2 : readByte s1 with ⟨r2, s2⟩
    have hi2 := readByte_inv s1 hi1.1
    rw [hr2] at hi2
    cases r2 with
    | error e => exact ⟨hi2.1, hi2.2.trans hi1.2⟩
    | ok b1 =>
      dsimp only
      rcases hr3 : readByte s2 with ⟨r3, s3⟩
      have hi3 := readByte_inv s2 hi2.1
      rw [hr3] at hi3
      cases r3 with
      | error e => exact ⟨hi3.1, (hi3.2.trans hi2.2).trans hi1.2⟩
      | ok b2 =>
        dsimp only
        rcases hr4 : readByte s3 with ⟨r4, s4⟩
        have hi4 := readByte_inv s3 hi3.1
        rw [hr4] at hi4
        cases r4 with
        | error e => exact ⟨hi4.1, ((hi4.2.trans hi3.2).trans hi2.2).trans hi1.2⟩
        | ok b3 => exact ⟨hi4.1, ((hi4.2.trans hi3.2).trans hi2.2).trans hi1.2⟩

theorem readUtf8Loop_inv : ∀ (fuel : Nat) (s : ObjectStream) (prev cur : Nat) (acc : List Nat),
    cursorOk s → cursorOk (readUtf8Loop fuel s prev cur acc).2 := by
  intro fuel
  induction fuel with
  | zero => intro s prev cur acc h; exact h
  | succ f ih =>
    intro s prev cur acc h
    rw [readUtf8Loop]
    by_cases hg : 0 < getRemainingByteCount s ∧ prev ≠ 0 ∧ cur ≠ 0
    · rw [if_pos hg]
      rcases hr : readByte s with ⟨r, s1⟩
      have hi := readByte_inv s h
      rw [hr] at hi
      cases r with
      | error e => exact hi.1
      | ok b => exact ih s1 cur b (acc ++ [cur]) hi.1
    · rw [if_neg hg]
      exact h

theorem readUtf8_inv (s : ObjectStream) (h : cursorOk s) : cursorOk (readUtf8 s).2 := by
  rw [readUtf8]
  rcases hr1 : readByte s with ⟨r1, s1⟩
  have hi1 := readByte_inv s h
  rw [hr1] at hi1
  cases r1 with
  | error e => exact hi1.1
  | ok prev =>
    dsimp only
    by_cases hp : prev = 0
    · rw [if_pos hp]
      exact hi1.1
    · rw [if_neg hp]
      rcases hr2 : readByte s1 with ⟨r2, s2⟩
      have hi2 := readByte_inv s1 hi1.1
      rw [hr2] at hi2
      cases r2 with
      | error e => exact hi2.1
      | ok cur =>
        dsimp only
        exact readUtf8Loop_inv _ s2 prev cur [prev] hi2.1

theorem writeBytes_inv : ∀ (bs : List Nat) (s : ObjectStream), cursorOk s →
    cursorOk (writeBytes s bs).2 := by
  intro bs
  induction bs with
  | nil => intro s h; exact h
  | cons b rest ih =>
    intro s h
    rw [writeBytes, writeByte]
    by_cases hb : 255 < b
    · rw [if_pos hb]
      exact h
    · rw [if_neg hb]
      dsimp only
      refine ih _ ?_
      simp [cursorOk] at h ⊢
      omega

/-! ## Claims -/

/-- C1 counterexample: the claim includes `None` among the round-trippable
scalars, but writing `None` (class `NoneType`) succeeds and reading it back
fails with `AttributeError`, because `getattr(sys.modules["builtins"],
"NoneType")` fails and `Utils.getClass` only catches `KeyError`. -/
theorem C1_none_fails :
    (writeObject ⟨0, [], 0⟩ .pyNone).1 = .ok () ∧
    (readObject 1 ⟨0, ((writeObject ⟨0, [], 0⟩ .pyNone).2).data, 0⟩).1 = .error .attributeError ∧
    (readObject 1 ⟨0, ((writeObject ⟨0, [], 0⟩ .pyNone).2).data, 0⟩).1 ≠ .ok .pyNone := by
  decide

/-- C1 (amended): for every scalar value of class `int`, `bool` or `str`
that the generic-value codec round-trips, `writeObject` appends the
value's frame and `readObject` from the same position returns an equal
value, consuming the whole frame.  (`None` is excluded: its read fails,
see the counterexample; floats are outside the embedding.) -/
theorem C1_scalar_roundtrip (v : PyValue) (s : ObjectStream) (fuel : Nat)
    (hsc : isScalarB v = true) (hj : jsonOkB v = true) (hfuel : 1 ≤ fuel) :
    writeObject s v = (.ok (), ⟨s.ident, s.data ++ encFrame v, s.offset⟩) ∧
    readObject fuel ⟨s.ident, s.data ++ encFrame v, s.data.length⟩ =
      (.ok v, ⟨s.ident, s.data ++ encFrame v, (s.data ++ encFrame v).length⟩) := by
  constructor
  · exact writeObject_scalar v s hsc hj
  · have hdrop : (s.data ++ encFrame v).drop s.data.length = encFrame v ++ [] := by
      simp [List.drop_left]
    have h := readObject_scalar v hsc hj fuel s.ident s.data.length
      (s.data ++ encFrame v) [] hfuel hdrop
    rw [h]
    refine Prod.ext rfl ?_
    simp

/-- C1 witness: the integer 42 (the spec's own example a) round-trips. -/
theorem C1_witness :
    writeObject ⟨0, [], 0⟩ (.pyInt 42) =
      (.ok (), ⟨0, ([] : List Nat) ++ encFrame (.pyInt 42), 0⟩) ∧
    readObject 1 ⟨0, ([] : List Nat) ++ encFrame (.pyInt 42), ([] : List Nat).length⟩ =
      (.ok (.pyInt 42), ⟨0, ([] : List Nat) ++ encFrame (.pyInt 42),
        (([] : List Nat) ++ encFrame (.pyInt 42)).length⟩) :=
  C1_scalar_roundtrip (.pyInt 42) ⟨0, [], 0⟩ 1 (by decide) (by decide) (by decide)

/-- C2 counterexample: an instance of a registered zero-argument class
whose single field holds `None` is written successfully but cannot be
read back (the nested `NoneType` frame fails with `AttributeError`), so
the claim as stated — quantifying over all field-enumerable instances of
resolvable type — is false. -/
theorem C2_none_field_fails :
    (writeObject ⟨0, [], 0⟩ (.pyObj (strCodes ("appmodule")) (strCodes ("Point"))
      (.cons (strCodes ("x")) .pyNone .nil))).1 = .ok () ∧
    (readObject 2 ⟨0, ((writeObject ⟨0, [], 0⟩ (.pyObj (strCodes ("appmodule")) (strCodes ("Point"))
      (.cons (strCodes ("x")) .pyNone .nil))).2).data, 0⟩).1 = .error .attributeError := by
  decide

/-- C2 (amended): for every instance of a type resolving to a plain
zero-argument class, whose field names are distinct Encoding-A-safe
strings, whose field count fits four bytes, and whose field values are
recursively serializable (codec-round-trippable scalars or such
composites), the reconstructed instance equals the original — same module,
class, field names and recursively equal field values, in the same order
(so equality holds a fortiori with order disregarded). -/
theorem C2_composite_roundtrip (m c : List Nat) (fs : PyFields) (s : ObjectStream) (fuel : Nat)
    (hv : serializableB (.pyObj m c fs) = true)
    (hfuel : depth (.pyObj m c fs) ≤ fuel) :
    writeObject s (.pyObj m c fs) =
      (.ok (), ⟨s.ident, s.data ++ encFrame (.pyObj m c fs), s.offset⟩) ∧
    readObject fuel ⟨s.ident, s.data ++ encFrame (.pyObj m c fs), s.data.length⟩ =
      (.ok (.pyObj m c fs), ⟨s.ident, s.data ++ encFrame (.pyObj m c fs),
        (s.data ++ encFrame (.pyObj m c fs)).length⟩) := by
  constructor
  · exact writeObject_spec _ hv s
  · have hdrop : (s.data ++ encFrame (.pyObj m c fs)).drop s.data.length
        = encFrame (.pyObj m c fs) ++ [] := by
      simp [List.drop_left]
    have h := readObject_spec _ hv fuel s.ident s.data.length
      (s.data ++ encFrame (.pyObj m c fs)) [] hfuel hdrop
    rw [h]
    refine Prod.ext rfl ?_
    simp

/-- C2 witness: the spec's example c, an instance `{x: 1, y: 2}` of a
registered class, round-trips with both fields intact. -/
theorem C2_witness :
    writeObject ⟨0, [], 0⟩ (.pyObj (strCodes ("appmodule")) (strCodes ("Point"))
        (.cons (strCodes ("x")) (.pyInt 1) (.cons (strCodes ("y")) (.pyInt 2) .nil))) =
      (.ok (), ⟨0, ([] : List Nat) ++ encFrame (.pyObj (strCodes ("appmodule")) (strCodes ("Point"))
        (.cons (strCodes ("x")) (.pyInt 1) (.cons (strCodes ("y")) (.pyInt 2) .nil))), 0⟩) ∧
    readObject 2 ⟨0, ([] : List Nat) ++ encFrame (.pyObj (strCodes ("appmodule")) (strCodes ("Point"))
        (.cons (strCodes ("x")) (.pyInt 1) (.cons (strCodes ("y")) (.pyInt 2) .nil))),
        ([] : List Nat).length⟩ =
      (.ok (.pyObj (strCodes ("appmodule")) (strCodes ("Point"))
        (.cons (strCodes ("x")) (.pyInt 1) (.cons (strCodes ("y")) (.pyInt 2) .nil))),
       ⟨0, ([] : List Nat) ++ encFrame (.pyObj (strCodes ("appmodule")) (strCodes ("Point"))
        (.cons (strCodes ("x")) (.pyInt 1) (.cons (strCodes ("y")) (.pyInt 2) .nil))),
        (([] : List Nat) ++ encFrame (.pyObj (strCodes ("appmodule")) (strCodes ("Point"))
        (.cons (strCodes ("x")) (.pyInt 1) (.cons (strCodes ("y")) (.pyInt 2) .nil)))).length⟩) :=
  C2_composite_roundtrip (strCodes ("appmodule")) (strCodes ("Point"))
    (.cons (strCodes ("x")) (.pyInt 1) (.cons (strCodes ("y")) (.pyInt 2) .nil))
    ⟨0, [], 0⟩ 2 (by decide) (by decide)

/-- C3: for every serializable value whose body fits the 4-byte length
field, the frame `writeObject` emits carries, at the back-patched
position, exactly the length of its body; decoding those four bytes with
`readInt` yields that length, and the matching `readObject` consumes the
metadata, the four length bytes, and then exactly that many payload
bytes. -/
theorem C3_length_correct (v : PyValue) (s : ObjectStream) (fuel id i : Nat)
    (D rest : List Nat)
    (hv : serializableB v = true) (hfuel : depth v ≤ fuel)
    (hsize : (encBody v).length < 4294967296)
    (hdrop : D.drop i = encFrame v ++ rest) :
    writeObject s v = (.ok (), ⟨s.ident,
      s.data ++ (encMeta v ++ int32be ((encBody v).length) ++ encBody v), s.offset⟩) ∧
    readInt ⟨id, D, i + (encMeta v).length⟩ =
      (.ok ((encBody v).length), ⟨id, D, i + (encMeta v).length + 4⟩) ∧
    readObject fuel ⟨id, D, i⟩ =
      (.ok v, ⟨id, D, i + (encMeta v).length + 4 + (encBody v).length⟩) := by
  have hmid : D.drop (i + (encMeta v).length)
      = int32be ((encBody v).length) ++ (encBody v ++ rest) := by
    have h2 : D.drop i = encMeta v ++ (int32be ((encBody v).length) ++ (encBody v ++ rest)) := by
      simpa [encFrame, List.append_assoc] using hdrop
    exact drop_shift h2
  refine ⟨?_, ?_, ?_⟩
  · have h := writeObject_spec v hv s
    rw [h, encFrame]
  · exact readInt_int32be _ _ _ hsize hmid
  · have h := readObject_spec v hv fuel id i D rest hfuel hdrop
    rw [h]
    refine Prod.ext rfl ?_
    simp only [ObjectStream.mk.injEq]
    refine ⟨trivial, trivial, ?_⟩
    simp [encFrame, int32be_length]
    omega

/-- C3 witness: the recorded length of the frame of the integer 42 equals
the payload bytes its read consumes. -/
theorem C3_witness :
    writeObject ⟨0, [], 0⟩ (.pyInt 42) = (.ok (), ⟨0, ([] : List Nat) ++
      (encMeta (.pyInt 42) ++ int32be ((encBody (.pyInt 42)).length) ++ encBody (.pyInt 42)), 0⟩) ∧
    readInt ⟨0, encFrame (.pyInt 42), 0 + (encMeta (.pyInt 42)).length⟩ =
      (.ok ((encBody (.pyInt 42)).length),
       ⟨0, encFrame (.pyInt 42), 0 + (encMeta (.pyInt 42)).length + 4⟩) ∧
    readObject 1 ⟨0, encFrame (.pyInt 42), 0⟩ =
      (.ok (.pyInt 42), ⟨0, encFrame (.pyInt 42),
        0 + (encMeta (.pyInt 42)).length + 4 + (encBody (.pyInt 42)).length⟩) :=
  C3_length_correct (.pyInt 42) ⟨0, [], 0⟩ 1 0 0 (encFrame (.pyInt 42)) []
    (by decide) (by decide) (by decide) (by simp)

/-- C4 counterexample: a code point above 255 is not written as a 6-byte
escape — the write fails outright with `NameError` (the source calls the
undefined name `Utilities`; the escape helper exists but is dead code) —
and a string whose single code point is 0 (inside the claimed range
`[0, 255]`) writes successfully but reads back as the empty string, so
encode-then-decode is not the identity as claimed. -/
theorem C4_escape_and_zero_fail :
    convertStringToUtf8Bytes [4660] = .error .nameError ∧
    writeUtf8 ⟨0, [], 0⟩ [4660] = (.error .nameError, ⟨0, [], 0⟩) ∧
    (writeUtf8 ⟨0, [], 0⟩ [0]).1 = .ok () ∧
    ((writeUtf8 ⟨0, [], 0⟩ [0]).2).data = [0, 0] ∧
    (readUtf8 ⟨0, [0, 0], 0⟩).1 = .ok [] ∧
    (.ok [] : Except Err (List Nat)) ≠ .ok [0] := by
  decide

/-- C4 (amended): for every string whose code points all lie in `[1, 255]`,
Encoding-A encode (`writeUtf8`, via `convertStringToUtf8Bytes`) appends the
code points verbatim plus a zero terminator, and decode (`readUtf8`) from
any position holding those bytes returns the original string with the
cursor just past the terminator.  Code point 0 is misread as the
terminator, and code points above 255 raise `NameError` instead of being
escaped. -/
theorem C4_encodingA_roundtrip (s : ObjectStream) (cs rest : List Nat)
    (h : ∀ c ∈ cs, 0 < c ∧ c ≤ 255) :
    writeUtf8 s cs = (.ok (), ⟨s.ident, s.data ++ cs ++ [0], s.offset⟩) ∧
    (∀ id D i, D.drop i = cs ++ 0 :: rest →
      readUtf8 ⟨id, D, i⟩ = (.ok cs, ⟨id, D, i + (cs.length + 1)⟩)) := by
  constructor
  · exact writeUtf8_ok s cs (fun c hc => (h c hc).2)
  · intro id D i hd
    exact readUtf8_spec _ _ _ (fun c hc => (h c hc).1.ne') hd

/-- C4 witness: the spec's example b — "Hi" encodes to `[72, 105, 0]` and
decodes back to "Hi". -/
theorem C4_witness :
    writeUtf8 ⟨0, [], 0⟩ (strCodes ("Hi")) =
      (.ok (), ⟨0, ([] : List Nat) ++ strCodes ("Hi") ++ [0], 0⟩) ∧
    readUtf8 ⟨0, [72, 105, 0], 0⟩ =
      (.ok (strCodes ("Hi")), ⟨0, [72, 105, 0], 0 + ((strCodes ("Hi")).length + 1)⟩) := by
  have h := C4_encodingA_roundtrip ⟨0, [], 0⟩ (strCodes ("Hi")) [] (by decide)
  exact ⟨h.1, h.2 0 [72, 105, 0] 0 (by decide)⟩

/-- C5: Encoding-B decode without an explicit size never reaches the
two-zero-byte scan: after the first `readByte`, the loop guard evaluates
`self.getRemainingBytes() > 0`, comparing a list with an integer, which
raises `TypeError` in Python 3.  Encode-then-decode of "A" therefore
fails instead of returning "A". -/
theorem C5_readUtf16_typeerror :
    writeUtf16 ⟨0, [], 0⟩ (strCodes ("A")) = (.ok (), ⟨0, [0, 65, 0, 0], 0⟩) ∧
    readUtf16 ⟨0, [0, 65, 0, 0], 0⟩ = (.error .typeError, ⟨0, [0, 65, 0, 0], 1⟩) ∧
    (readUtf16 ⟨0, [0, 65, 0, 0], 0⟩).1 ≠ .ok (strCodes ("A")) := by
  decide

/-- C6: a stream with buffer `[1, 2, 3]` nested as a field value is
written successfully (version byte, cursor, length, bytes), but reading
the outer object back fails with `IndexError`: `readFromObjectStream`
reads its version byte from `self` — the fresh empty instance — instead of
from the source stream (whose own write counterpart writes that byte to
the target), so no nested stream can ever be reconstructed. -/
theorem C6_nested_stream_read_fails :
    (writeObject ⟨0, [], 0⟩ (.pyObj (strCodes ("appmodule")) (strCodes ("Point"))
      (.cons (strCodes ("s")) (.pyStream 1 [1, 2, 3] 2) .nil))).1 = .ok () ∧
    (readObject 2 ⟨0, ((writeObject ⟨0, [], 0⟩ (.pyObj (strCodes ("appmodule")) (strCodes ("Point"))
      (.cons (strCodes ("s")) (.pyStream 1 [1, 2, 3] 2) .nil))).2).data, 0⟩).1
      = .error .indexError ∧
    readFromObjectStream ⟨0, [], 0⟩ ⟨1, [0, 0, 0, 0, 2, 0, 0, 0, 3, 1, 2, 3], 0⟩ =
      (.error .indexError, (⟨0, [], 0⟩, ⟨1, [0, 0, 0, 0, 2, 0, 0, 0, 3, 1, 2, 3], 0⟩)) := by
  decide

/-- C7: writing a stream into itself (the argument carries the receiver's
identity — in Python, `self == obj` is an identity comparison) always
fails with `RecursionError`, deterministically, before any mutation:
buffer and cursor are returned unchanged. -/
theorem C7_self_write_rejected (s : ObjectStream) :
    writeObject s (.pyStream s.ident s.data s.offset) = (.error .recursionError, s) := by
  rw [writeObject, if_pos (by simp [isSelfOf])]

/-- C8 counterexample: a frame naming the known module `builtins` with the
absent class `Missing` makes `readObject` fail with `AttributeError`
(from the uncaught `getattr` failure), not with the `TypeError` that
stands for the spec's TypeLookupError — so "class name absent from a known
module" does not produce TypeLookupError as claimed. -/
theorem C8_missing_class_attributeerror :
    getClass (strCodes ("builtins")) (strCodes ("Missing")) = .error .attributeError ∧
    (readObject 1 ⟨0, strCodes ("builtins") ++ 0 :: (strCodes ("Missing") ++
      0 :: 0 :: 0 :: 0 :: 0 :: 0 :: []), 0⟩).1 = .error .attributeError ∧
    Err.attributeError ≠ Err.typeError := by
  decide

/-- C8 (amended): on a frame whose type descriptor does not resolve,
`readObject` fails right after consuming the descriptor, version byte and
length field — with `TypeError` (the spec's TypeLookupError) when the
module is unknown, but with `AttributeError` when the module is known and
the class name is absent from it. -/
theorem C8_type_lookup (fuel id i ver b0 b1 b2 b3 : Nat) (D rest mn cn : List Nat)
    (hm : ∀ c ∈ mn, c ≠ 0) (hc : ∀ c ∈ cn, c ≠ 0)
    (hdrop : D.drop i = mn ++ 0 :: (cn ++ 0 :: ver :: b0 :: b1 :: b2 :: b3 :: rest)) :
    (pyModules.lookup mn = none → readObject (fuel + 1) ⟨id, D, i⟩ =
      (.error .typeError, ⟨id, D, i + (mn.length + 1) + (cn.length + 1) + 1 + 4⟩)) ∧
    (∀ classes, pyModules.lookup mn = some classes → classes.lookup cn = none →
      readObject (fuel + 1) ⟨id, D, i⟩ =
        (.error .attributeError, ⟨id, D, i + (mn.length + 1) + (cn.length + 1) + 1 + 4⟩)) := by
  have hd1 := drop_past_str hdrop
  have hd2 := drop_past_str hd1
  have hd3 := drop_succ hd2
  constructor
  · intro hnone
    rw [readObject]
    rw [readUtf8_spec _ _ _ hm hdrop]
    dsimp only
    rw [readUtf8_spec _ _ _ hc hd1]
    dsimp only
    rw [readByte_spec _ _ _ hd2]
    dsimp only
    rw [readInt_spec _ _ _ _ _ _ hd3]
    dsimp only
    rw [show getClass mn cn = .error .typeError from by rw [getClass, hnone]]
  · intro classes hsome hnone
    rw [readObject]
    rw [readUtf8_spec _ _ _ hm hdrop]
    dsimp only
    rw [readUtf8_spec _ _ _ hc hd1]
    dsimp only
    rw [readByte_spec _ _ _ hd2]
    dsimp only
    rw [readInt_spec _ _ _ _ _ _ hd3]
    dsimp only
    rw [show getClass mn cn = .error .attributeError from by
      rw [getClass, hsome]
      dsimp only
      rw [hnone]]

/-- C8 witness: a frame naming the unregistered module `nomodule` fails
with `TypeError` (TypeLookupError). -/
theorem C8_witness :
    readObject 1 ⟨0, strCodes ("nomodule") ++ 0 :: (strCodes ("X") ++
      0 :: 0 :: 0 :: 0 :: 0 :: 0 :: []), 0⟩ =
      (.error .typeError, ⟨0, strCodes ("nomodule") ++ 0 :: (strCodes ("X") ++
        0 :: 0 :: 0 :: 0 :: 0 :: 0 :: []),
        0 + ((strCodes ("nomodule")).length + 1) + ((strCodes ("X")).length + 1) + 1 + 4⟩) :=
  (C8_type_lookup 0 0 0 0 0 0 0 0
    (strCodes ("nomodule") ++ 0 :: (strCodes ("X") ++ 0 :: 0 :: 0 :: 0 :: 0 :: 0 :: []))
    [] (strCodes ("nomodule")) (strCodes ("X"))
    (by decide) (by decide) (by simp)).1 (by decide)

/-- C9 counterexample: `readFromObjectStream` is an ObjectStream operation
that can leave the cursor beyond the buffer: fed a crafted source stream
recording cursor 7 and zero data bytes, it succeeds and leaves the
receiver with an empty buffer and cursor 7. -/
theorem C9_cursor_escape :
    (readFromObjectStream ⟨0, [9], 0⟩ ⟨1, [0, 0, 0, 7, 0, 0, 0, 0], 0⟩).1 = .ok () ∧
    ((readFromObjectStream ⟨0, [9], 0⟩ ⟨1, [0, 0, 0, 7, 0, 0, 0, 0], 0⟩).2.1).data.length <
      ((readFromObjectStream ⟨0, [9], 0⟩ ⟨1, [0, 0, 0, 7, 0, 0, 0, 0], 0⟩).2.1).offset := by
  decide

/-- C9 (amended): every primitive ObjectStream operation other than
`readFromObjectStream` preserves the invariant `cursor ∈ [0, length]`
(also on its failure paths), no read returns bytes beyond the buffer
(`readBytes` truncates rather than failing), and `readByte` past the end
fails with `IndexError` instead of returning data.
`readFromObjectStream` violates the invariant (see the counterexample). -/
theorem C9_cursor_invariant (s : ObjectStream) (b amount n : Nat) (bs cs : List Nat)
    (h : cursorOk s) :
    cursorOk (writeByte s b).2 ∧
    cursorOk (writeBytes s bs).2 ∧
    cursorOk (writeInt s n) ∧
    cursorOk (writeUtf8 s cs).2 ∧
    cursorOk (writeUtf16 s cs).2 ∧
    cursorOk (readByte s).2 ∧
    (s.data.length ≤ s.offset → (readByte s).1 = .error .indexError) ∧
    cursorOk (readBytes s amount).2 ∧
    cursorOk (readInt s).2 ∧
    cursorOk (readUtf8 s).2 ∧
    cursorOk (readUtf16 s).2 := by
  refine ⟨?_, writeBytes_inv bs s h, ?_, ?_, ?_, (readByte_inv s h).1, ?_, ?_,
    (readInt_inv s h).1, readUtf8_inv s h, ?_⟩
  · rw [writeByte]
    by_cases hb : 255 < b
    · rw [if_pos hb]
      exact h
    · rw [if_neg hb]
      simp only [cursorOk] at h ⊢
      simp
      omega
  · simp only [writeInt, cursorOk] at h ⊢
    simp
    omega
  · rw [writeUtf8]
    cases hc : convertStringToUtf8Bytes cs with
    | error e => exact h
    | ok bsj =>
      simp only [cursorOk] at h ⊢
      simp
      omega
  · simp only [writeUtf16, cursorOk] at h ⊢
    simp
    omega
  · intro hle
    have hx : s.data[s.offset]? = none := List.getElem?_eq_none_iff.mpr hle
    rw [readByte, hx]
  · simp only [readBytes, cursorOk] at h ⊢
    simp only [List.length_take, List.length_drop]
    omega
  · rw [readUtf16]
    rcases hr : readByte s with ⟨r, s1⟩
    have hi := readByte_inv s h
    rw [hr] at hi
    cases r with
    | error e => exact hi.1
    | ok b2 => exact hi.1

/-- C9 witness: a stream with a valid cursor keeps a valid cursor under a
byte write. -/
theorem C9_witness : cursorOk (writeByte ⟨0, [72, 105, 0], 0⟩ 3).2 :=
  (C9_cursor_invariant ⟨0, [72, 105, 0], 0⟩ 3 5 7 [4] [65] (Nat.zero_le _)).1

/-- C10: when the unread remainder consists of two or more bytes that are
all nonzero (the Encoding-A terminator is missing), `readUtf8` does not
fail: it returns the string of all but the last remaining byte and leaves
the cursor at the end of the buffer. -/
theorem C10_missing_terminator (id i : Nat) (D tail : List Nat)
    (hlen : 2 ≤ tail.length) (hnz : ∀ c ∈ tail, c ≠ 0)
    (hdrop : D.drop i = tail) :
    readUtf8 ⟨id, D, i⟩ = (.ok (tail.take (tail.length - 1)), ⟨id, D, D.length⟩) := by
  cases tail with
  | nil => simp at hlen
  | cons c1 t1 =>
    cases t1 with
    | nil => simp at hlen
    | cons c2 ts =>
      have h1 : D.drop i = c1 :: (c2 :: ts) := hdrop
      have hD : D.length = i + (ts.length + 2) := by
        have hl := congrArg List.length hdrop
        simp only [List.length_drop, List.length_cons] at hl
        have hi : i < D.length := drop_ne_nil_lt h1
        omega
      rw [readUtf8, readByte_spec _ _ _ h1]
      dsimp only
      rw [if_neg (hnz c1 (by simp))]
      rw [readByte_spec _ _ _ (drop_succ h1)]
      dsimp only
      rw [readUtf8Loop_noterm ts _ id (i + 1 + 1) D [c1] c1 c2 (hnz c1 (by simp))
        (hnz c2 (by simp)) (fun c hc2 => hnz c (by simp [hc2]))
        (drop_succ (drop_succ h1)) (by simp [getRemainingByteCount])]
      refine Prod.ext ?_ ?_
      · simp [List.dropLast_eq_take]
      · simp only [ObjectStream.mk.injEq]
        refine ⟨trivial, trivial, by omega⟩

/-- C10 witness: remainder `[5, 6, 7]` with no terminator reads as
`[5, 6]` with the cursor at the end. -/
theorem C10_witness :
    readUtf8 ⟨0, [5, 6, 7], 0⟩ =
      (.ok ([5, 6, 7].take ([5, 6, 7].length - 1)), ⟨0, [5, 6, 7], [5, 6, 7].length⟩) :=
  C10_missing_terminator 0 0 [5, 6, 7] [5, 6, 7] (by decide) (by decide) (by simp)

/-- C7 witness: a concrete stream rejects writing itself, unchanged. -/
theorem C7_witness :
    writeObject ⟨3, [1, 2], 1⟩ (.pyStream 3 [1, 2] 1) =
      (.error .recursionError, ⟨3, [1, 2], 1⟩) :=
  C7_self_write_rejected ⟨3, [1, 2], 1⟩
